import Mathlib

/-!
# NVM access layer of the Intel e1000e driver (`e1000_nvm.c`)

A shallow embedding of the functions of `src/IntelE1000e/e1000_nvm.c`.

* The hardware is reached only through `er32`, `ew32`, `e1e_flush`, `udelay`,
  `msleep`, `e_dbg` and the function pointers `nvm->ops.acquire` and
  `nvm->ops.release`.  Each of these adds one `Event` to a trace, so that every
  hardware access of a call can be observed afterwards.  A trace lists its
  events newest first; the functions that observe a trace (`reg_writes`,
  `reg_reads`, `ops_calls`) return what they find in chronological order.
* What the hardware answers is decided by an environment `Env`: the value of a
  register read and the value returned by `ops.acquire` are arbitrary
  functions of the whole history of events.
* The macros of `e1000.h` (bit masks, opcodes, attempt counts, offsets) are not
  among the sources; they are the fields of a parameter `Defines`.
-/

namespace E1000e

/-! ## Data model -/

/-- Registers named in `er32(...)` and `ew32(...)` of `e1000_nvm.c`. -/
inductive Reg where
  | EECD
  | EERD
  | EEWR
  | CTRL_EXT
  deriving DecidableEq, Repr

/-- Diagnostic messages handed to `e_dbg`. -/
inductive DbgMsg where
  | could_not_acquire_grant
  | spi_status_error
  | out_of_bounds
  | read_error
  | checksum_invalid
  | read_error_updating
  | write_error_updating
  deriving DecidableEq, Repr

/-- One primitive interaction of the driver with its surroundings. -/
inductive Event where
  | er32 (reg : Reg) (value : Nat)
  | ew32 (reg : Reg) (value : Nat)
  | e1e_flush
  | udelay (usec : Nat)
  | msleep (msec : Nat)
  | e_dbg (msg : DbgMsg)
  | ops_acquire (ret : Int)
  | ops_release
  deriving DecidableEq, Repr

/-- The surroundings of the driver: `reg h r` is the value the hardware presents
when register `r` is read after the history `h` (newest event first);
`acquire h` is the value returned by `nvm->ops.acquire` when it is called after
the history `h`. -/
structure Env where
  reg : List Event → Reg → Nat
  acquire : List Event → Int

/-- The macros of `e1000.h` used by `e1000_nvm.c`.  The header is not among the
sources, so the values are parameters of the whole development. -/
structure Defines where
  E1000_EECD_SK : Nat
  E1000_EECD_CS : Nat
  E1000_EECD_DI : Nat
  E1000_EECD_DO : Nat
  E1000_EECD_REQ : Nat
  E1000_EECD_GNT : Nat
  E1000_NVM_GRANT_ATTEMPTS : Nat
  E1000_NVM_POLL_READ : Nat
  E1000_NVM_RW_REG_DATA : Nat
  E1000_NVM_RW_REG_DONE : Nat
  E1000_NVM_RW_REG_START : Nat
  E1000_NVM_RW_ADDR_SHIFT : Nat
  NVM_MAX_RETRY_SPI : Nat
  NVM_RDSR_OPCODE_SPI : Nat
  NVM_WREN_OPCODE_SPI : Nat
  NVM_WRITE_OPCODE_SPI : Nat
  NVM_A8_OPCODE_SPI : Nat
  NVM_STATUS_RDY_SPI : Nat
  NVM_CHECKSUM_REG : Nat
  NVM_SUM : Nat
  E1000_ERR_NVM : Nat
  e1000_nvm_eeprom_spi : Nat

/-- The fields of `struct e1000_nvm_info` read by `e1000_nvm.c`. -/
structure e1000_nvm_info where
  type : Nat
  word_size : Nat
  address_bits : Nat
  opcode_bits : Nat
  page_size : Nat
  delay_usec : Nat

/-- The success code: the source tests results with `if (ret_val)`, so success
is zero. -/
def E1000_SUCCESS : Int := 0

/-- The value `-E1000_ERR_NVM`. -/
def ERR_NVM (c : Defines) : Int := -(c.E1000_ERR_NVM : Int)

/-! ## Primitives -/

/-- `er32(r)`: a 32-bit register read; the value read is recorded. -/
def er32 (env : Env) (r : Reg) (t : List Event) : Nat × List Event :=
  (env.reg t r % 2 ^ 32, Event.er32 r (env.reg t r % 2 ^ 32) :: t)

/-- `ew32(r, v)`: a register write. -/
def ew32 (r : Reg) (v : Nat) (t : List Event) : List Event :=
  Event.ew32 r v :: t

/-- `e1e_flush()`. -/
def e1e_flush (t : List Event) : List Event :=
  Event.e1e_flush :: t

/-- `udelay(usec)`. -/
def udelay (usec : Nat) (t : List Event) : List Event :=
  Event.udelay usec :: t

/-- `msleep(msec)`. -/
def msleep (msec : Nat) (t : List Event) : List Event :=
  Event.msleep msec :: t

/-- `e_dbg(msg)`. -/
def e_dbg (msg : DbgMsg) (t : List Event) : List Event :=
  Event.e_dbg msg :: t

/-- `nvm->ops.acquire(hw)`: the call is recorded with the value it returns. -/
def ops_acquire (env : Env) (t : List Event) : Int × List Event :=
  (env.acquire t, Event.ops_acquire (env.acquire t) :: t)

/-- `nvm->ops.release(hw)`. -/
def ops_release (t : List Event) : List Event :=
  Event.ops_release :: t

/-- The C operator `~` on a 32-bit operand. -/
def not32 (x : Nat) : Nat :=
  (x % 2 ^ 32) ^^^ 0xFFFFFFFF

/-! ## Bit-level shifter -/

/-- `e1000_raise_eec_clk`: returns the updated `*eecd`. -/
def e1000_raise_eec_clk (c : Defines) (nvm : e1000_nvm_info) (eecd : Nat)
    (t : List Event) : Nat × List Event :=
  let eecd := eecd ||| c.E1000_EECD_SK
  let t := ew32 Reg.EECD eecd t
  let t := e1e_flush t
  let t := udelay nvm.delay_usec t
  (eecd, t)

/-- `e1000_lower_eec_clk`: returns the updated `*eecd`. -/
def e1000_lower_eec_clk (c : Defines) (nvm : e1000_nvm_info) (eecd : Nat)
    (t : List Event) : Nat × List Event :=
  let eecd := eecd &&& not32 c.E1000_EECD_SK
  let t := ew32 Reg.EECD eecd t
  let t := e1e_flush t
  let t := udelay nvm.delay_usec t
  (eecd, t)

/-- The `do { ... } while (mask)` loop of `e1000_shift_out_eec_bits`.  The
first argument bounds the number of iterations; `mask` is a 32-bit value that
is halved by every iteration, so 32 is always enough. -/
def e1000_shift_out_eec_bits_loop (c : Defines) (nvm : e1000_nvm_info) (data : Nat) :
    Nat → Nat → Nat → List Event → Nat × List Event
  | 0, _, eecd, t => (eecd, t)
  | fuel + 1, mask, eecd, t =>
    let eecd := eecd &&& not32 c.E1000_EECD_DI
    let eecd := if data &&& mask ≠ 0 then eecd ||| c.E1000_EECD_DI else eecd
    let t := ew32 Reg.EECD eecd t
    let t := e1e_flush t
    let t := udelay nvm.delay_usec t
    let r := e1000_raise_eec_clk c nvm eecd t
    let r := e1000_lower_eec_clk c nvm r.1 r.2
    let mask := mask >>> 1
    if mask ≠ 0 then e1000_shift_out_eec_bits_loop c nvm data fuel mask r.1 r.2 else r

/-- `e1000_shift_out_eec_bits(hw, data, count)`.  Every caller passes a `count`
of at least 1; for `count = 0` the C shift `0x01 << (count - 1)` is
undefined. -/
def e1000_shift_out_eec_bits (c : Defines) (env : Env) (nvm : e1000_nvm_info)
    (data count : Nat) (t : List Event) : List Event :=
  let r := er32 env Reg.EECD t
  let mask := (1 <<< (count - 1)) % 2 ^ 32
  let eecd := if nvm.type = c.e1000_nvm_eeprom_spi then r.1 ||| c.E1000_EECD_DO else r.1
  let r := e1000_shift_out_eec_bits_loop c nvm data 32 mask eecd r.2
  let eecd := r.1 &&& not32 c.E1000_EECD_DI
  ew32 Reg.EECD eecd r.2

/-- The `for (i = 0; i < count; i++)` loop of `e1000_shift_in_eec_bits`; the
first argument is the number of iterations left, `data` is a 16-bit value. -/
def e1000_shift_in_eec_bits_loop (c : Defines) (env : Env) (nvm : e1000_nvm_info) :
    Nat → Nat → Nat → List Event → Nat × List Event
  | 0, data, _, t => (data, t)
  | n + 1, data, eecd, t =>
    let data := (data <<< 1) % 2 ^ 16
    let r := e1000_raise_eec_clk c nvm eecd t
    let r := er32 env Reg.EECD r.2
    let eecd := r.1 &&& not32 c.E1000_EECD_DI
    let data := if eecd &&& c.E1000_EECD_DO ≠ 0 then data ||| 1 else data
    let r := e1000_lower_eec_clk c nvm eecd r.2
    e1000_shift_in_eec_bits_loop c env nvm n data r.1 r.2

/-- `e1000_shift_in_eec_bits(hw, count)`. -/
def e1000_shift_in_eec_bits (c : Defines) (env : Env) (nvm : e1000_nvm_info)
    (count : Nat) (t : List Event) : Nat × List Event :=
  let r := er32 env Reg.EECD t
  let eecd := r.1 &&& not32 (c.E1000_EECD_DO ||| c.E1000_EECD_DI)
  e1000_shift_in_eec_bits_loop c env nvm count 0 eecd r.2

/-! ## Completion polling and arbitration -/

/-- The `for` loop of `e1000e_poll_eerd_eewr_done`; the first argument is the
number of attempts left. -/
def e1000e_poll_eerd_eewr_done_loop (c : Defines) (env : Env) (ee_reg : Nat) :
    Nat → List Event → Int × List Event
  | 0, t => (ERR_NVM c, t)
  | n + 1, t =>
    let r := if ee_reg = c.E1000_NVM_POLL_READ then er32 env Reg.EERD t
             else er32 env Reg.EEWR t
    if r.1 &&& c.E1000_NVM_RW_REG_DONE ≠ 0 then (E1000_SUCCESS, r.2)
    else e1000e_poll_eerd_eewr_done_loop c env ee_reg n (udelay 5 r.2)

/-- `e1000e_poll_eerd_eewr_done(hw, ee_reg)`, with its 100000 attempts. -/
def e1000e_poll_eerd_eewr_done (c : Defines) (env : Env) (ee_reg : Nat)
    (t : List Event) : Int × List Event :=
  e1000e_poll_eerd_eewr_done_loop c env ee_reg 100000 t

/-- The `while (timeout)` loop of `e1000e_acquire_nvm`: from `timeout` and
`eecd` to the final `timeout` and `eecd`. -/
def e1000e_acquire_nvm_loop (c : Defines) (env : Env) :
    Nat → Nat → List Event → Nat × Nat × List Event
  | 0, eecd, t => (0, eecd, t)
  | timeout + 1, eecd, t =>
    if eecd &&& c.E1000_EECD_GNT ≠ 0 then (timeout + 1, eecd, t)
    else
      let t := udelay 5 t
      let r := er32 env Reg.EECD t
      e1000e_acquire_nvm_loop c env timeout r.1 r.2

/-- `e1000e_acquire_nvm(hw)`. -/
def e1000e_acquire_nvm (c : Defines) (env : Env) (t : List Event) : Int × List Event :=
  let r := er32 env Reg.EECD t
  let t := ew32 Reg.EECD (r.1 ||| c.E1000_EECD_REQ) r.2
  let r := er32 env Reg.EECD t
  let l := e1000e_acquire_nvm_loop c env c.E1000_NVM_GRANT_ATTEMPTS r.1 r.2
  if l.1 = 0 then
    let eecd := l.2.1 &&& not32 c.E1000_EECD_REQ
    let t := ew32 Reg.EECD eecd l.2.2
    let t := e_dbg DbgMsg.could_not_acquire_grant t
    (ERR_NVM c, t)
  else (E1000_SUCCESS, l.2.2)

/-- `e1000_standby_nvm(hw)`. -/
def e1000_standby_nvm (c : Defines) (env : Env) (nvm : e1000_nvm_info)
    (t : List Event) : List Event :=
  let r := er32 env Reg.EECD t
  if nvm.type = c.e1000_nvm_eeprom_spi then
    let eecd := r.1 ||| c.E1000_EECD_CS
    let t := ew32 Reg.EECD eecd r.2
    let t := e1e_flush t
    let t := udelay nvm.delay_usec t
    let eecd := eecd &&& not32 c.E1000_EECD_CS
    let t := ew32 Reg.EECD eecd t
    let t := e1e_flush t
    udelay nvm.delay_usec t
  else r.2

/-- `e1000_stop_nvm(hw)`. -/
def e1000_stop_nvm (c : Defines) (env : Env) (nvm : e1000_nvm_info)
    (t : List Event) : List Event :=
  let r := er32 env Reg.EECD t
  if nvm.type = c.e1000_nvm_eeprom_spi then
    let eecd := r.1 ||| c.E1000_EECD_CS
    (e1000_lower_eec_clk c nvm eecd r.2).2
  else r.2

/-- `e1000e_release_nvm(hw)`. -/
def e1000e_release_nvm (c : Defines) (env : Env) (nvm : e1000_nvm_info)
    (t : List Event) : List Event :=
  let t := e1000_stop_nvm c env nvm t
  let r := er32 env Reg.EECD t
  let eecd := r.1 &&& not32 c.E1000_EECD_REQ
  ew32 Reg.EECD eecd r.2

/-- The `while (timeout)` loop of `e1000_ready_nvm_eeprom`: from `timeout` to
the final `timeout`. -/
def e1000_ready_nvm_eeprom_loop (c : Defines) (env : Env) (nvm : e1000_nvm_info) :
    Nat → List Event → Nat × List Event
  | 0, t => (0, t)
  | timeout + 1, t =>
    let t := e1000_shift_out_eec_bits c env nvm c.NVM_RDSR_OPCODE_SPI nvm.opcode_bits t
    let r := e1000_shift_in_eec_bits c env nvm 8 t
    let spi_stat_reg := r.1 % 2 ^ 8
    if spi_stat_reg &&& c.NVM_STATUS_RDY_SPI = 0 then (timeout + 1, r.2)
    else
      let t := udelay 5 r.2
      let t := e1000_standby_nvm c env nvm t
      e1000_ready_nvm_eeprom_loop c env nvm timeout t

/-- `e1000_ready_nvm_eeprom(hw)`. -/
def e1000_ready_nvm_eeprom (c : Defines) (env : Env) (nvm : e1000_nvm_info)
    (t : List Event) : Int × List Event :=
  let r := er32 env Reg.EECD t
  if nvm.type = c.e1000_nvm_eeprom_spi then
    let eecd := r.1 &&& not32 (c.E1000_EECD_CS ||| c.E1000_EECD_SK)
    let t := ew32 Reg.EECD eecd r.2
    let t := udelay 1 t
    let l := e1000_ready_nvm_eeprom_loop c env nvm c.NVM_MAX_RETRY_SPI t
    if l.1 = 0 then (ERR_NVM c, e_dbg DbgMsg.spi_status_error l.2)
    else (E1000_SUCCESS, l.2)
  else (E1000_SUCCESS, r.2)

/-! ## Register-assisted read and SPI write -/

/-- The bounds check shared by `e1000e_read_nvm_eerd` and
`e1000e_write_nvm_spi`; the subtraction is carried out in `int`. -/
def nvm_out_of_bounds (nvm : e1000_nvm_info) (offset words : Nat) : Bool :=
  decide (offset ≥ nvm.word_size) ||
    decide ((words : Int) > (nvm.word_size : Int) - (offset : Int)) ||
    decide (words = 0)

/-- The value written to EERD to start the read of word `offset + i`
(32-bit arithmetic). -/
def eerd_trigger (c : Defines) (offset i : Nat) : Nat :=
  ((((offset + i) % 2 ^ 32) <<< c.E1000_NVM_RW_ADDR_SHIFT) % 2 ^ 32
    + c.E1000_NVM_RW_REG_START) % 2 ^ 32

/-- The `for (i = 0; i < words; i++)` loop of `e1000e_read_nvm_eerd`; the first
argument is the number of iterations left. -/
def e1000e_read_nvm_eerd_loop (c : Defines) (env : Env) (offset : Nat) :
    Nat → Nat → List Nat → List Event → Int × List Nat × List Event
  | 0, _, data, t => (E1000_SUCCESS, data, t)
  | n + 1, i, data, t =>
    let eerd := eerd_trigger c offset i
    let t := ew32 Reg.EERD eerd t
    let p := e1000e_poll_eerd_eewr_done c env c.E1000_NVM_POLL_READ t
    if p.1 ≠ 0 then (p.1, data, p.2)
    else
      let r := er32 env Reg.EERD p.2
      let data := data.set i ((r.1 >>> c.E1000_NVM_RW_REG_DATA) % 2 ^ 16)
      e1000e_read_nvm_eerd_loop c env offset n (i + 1) data r.2

/-- `e1000e_read_nvm_eerd(hw, offset, words, data)`: the result, the buffer
`data` after the call and the trace. -/
def e1000e_read_nvm_eerd (c : Defines) (env : Env) (nvm : e1000_nvm_info)
    (offset words : Nat) (data : List Nat) (t : List Event) :
    Int × List Nat × List Event :=
  if nvm_out_of_bounds nvm offset words then
    (ERR_NVM c, data, e_dbg DbgMsg.out_of_bounds t)
  else e1000e_read_nvm_eerd_loop c env offset words 0 data t

/-- The inner `while (widx < words)` loop of `e1000e_write_nvm_spi`, which
writes up to the end of a page: from `widx` to the new `widx`.  The first
argument bounds the number of iterations, `words - widx` is always enough.
`data[widx]` is read from the caller's buffer, which holds `words` words;
`nvm->page_size` is nonzero in an initialised descriptor (for a zero divisor
the C operator `%` is undefined, here `x % 0 = x`). -/
def e1000e_write_nvm_spi_page (c : Defines) (env : Env) (nvm : e1000_nvm_info)
    (offset words : Nat) (data : List Nat) :
    Nat → Nat → List Event → Nat × List Event
  | 0, widx, t => (widx, t)
  | fuel + 1, widx, t =>
    if widx < words then
      let word_out := data.getD widx 0
      let word_out := ((word_out >>> 8) ||| (word_out <<< 8)) % 2 ^ 16
      let t := e1000_shift_out_eec_bits c env nvm word_out 16 t
      let widx := widx + 1
      if ((offset + widx) * 2) % nvm.page_size = 0 then
        (widx, e1000_standby_nvm c env nvm t)
      else e1000e_write_nvm_spi_page c env nvm offset words data fuel widx t
    else (widx, t)

/-- The outer `while (widx < words)` loop of `e1000e_write_nvm_spi` up to the
label `release`: a failure of `e1000_ready_nvm_eeprom` jumps to `release`,
the normal exit passes through `msleep(10)`.  The first argument bounds the
number of iterations; every iteration that does not leave the loop writes at
least one word, so `words` is always enough. -/
def e1000e_write_nvm_spi_loop (c : Defines) (env : Env) (nvm : e1000_nvm_info)
    (offset words : Nat) (data : List Nat) :
    Nat → Int → Nat → List Event → Int × List Event
  | 0, ret_val, _, t => (ret_val, msleep 10 t)
  | fuel + 1, ret_val, widx, t =>
    if widx < words then
      let write_opcode := c.NVM_WRITE_OPCODE_SPI
      let r := e1000_ready_nvm_eeprom c env nvm t
      if r.1 ≠ 0 then (r.1, r.2)
      else
        let t := e1000_standby_nvm c env nvm r.2
        let t := e1000_shift_out_eec_bits c env nvm c.NVM_WREN_OPCODE_SPI nvm.opcode_bits t
        let t := e1000_standby_nvm c env nvm t
        let write_opcode :=
          if nvm.address_bits = 8 ∧ offset ≥ 128 then write_opcode ||| c.NVM_A8_OPCODE_SPI
          else write_opcode
        let t := e1000_shift_out_eec_bits c env nvm write_opcode nvm.opcode_bits t
        let t := e1000_shift_out_eec_bits c env nvm (((offset + widx) * 2) % 2 ^ 16)
          nvm.address_bits t
        let p := e1000e_write_nvm_spi_page c env nvm offset words data (words - widx) widx t
        e1000e_write_nvm_spi_loop c env nvm offset words data fuel r.1 p.1 p.2
    else (ret_val, msleep 10 t)

/-- `e1000e_write_nvm_spi(hw, offset, words, data)`. -/
def e1000e_write_nvm_spi (c : Defines) (env : Env) (nvm : e1000_nvm_info)
    (offset words : Nat) (data : List Nat) (t : List Event) : Int × List Event :=
  if nvm_out_of_bounds nvm offset words then
    (ERR_NVM c, e_dbg DbgMsg.out_of_bounds t)
  else
    let a := ops_acquire env t
    if a.1 ≠ 0 then (a.1, a.2)
    else
      let r := e1000e_write_nvm_spi_loop c env nvm offset words data words a.1 0 a.2
      (r.1, ops_release r.2)

/-! ## Checksum layer -/

/-- The NVM operations reached through `e1000_read_nvm` and `e1000_write_nvm`,
the inline wrappers of `e1000.h` around `hw->nvm.ops.read` and
`hw->nvm.ops.write`; they are function pointers, modelled over an arbitrary
state `σ`.  `read offset words data s` returns the result, the buffer after the
call and the new state; `write offset words data s` the result and the new
state. -/
structure e1000_nvm_operations (σ : Type) where
  e1000_read_nvm : Nat → Nat → List Nat → σ → Int × List Nat × σ
  e1000_write_nvm : Nat → Nat → List Nat → σ → Int × σ
  e_dbg : DbgMsg → σ → σ

/-- The `for` loop of `e1000e_validate_nvm_checksum_generic` and of
`e1000e_update_nvm_checksum_generic`, which differ in the bound and in the
message only: reads the words `i`, `i + 1`, ... one at a time into `nvm_data`
and adds them to the 16-bit `checksum`.  The first argument is the number of
iterations left; the result is the failing read's value (or none) with the
final `checksum`. -/
def nvm_checksum_loop {σ : Type} (ops : e1000_nvm_operations σ) (msg : DbgMsg) :
    Nat → Nat → Nat → Nat → σ → Option Int × Nat × σ
  | 0, _, checksum, _, s => (none, checksum, s)
  | n + 1, i, checksum, nvm_data, s =>
    let r := ops.e1000_read_nvm i 1 [nvm_data] s
    if r.1 ≠ 0 then (some r.1, checksum, ops.e_dbg msg r.2.2)
    else
      let nvm_data := r.2.1.getD 0 nvm_data
      let checksum := (checksum + nvm_data) % 2 ^ 16
      nvm_checksum_loop ops msg n (i + 1) checksum nvm_data r.2.2

/-- `e1000e_validate_nvm_checksum_generic(hw)`; `nvm_data` is the initial
content of the uninitialised local of that name. -/
def e1000e_validate_nvm_checksum_generic {σ : Type} (c : Defines)
    (ops : e1000_nvm_operations σ) (nvm_data : Nat) (s : σ) : Int × σ :=
  let l := nvm_checksum_loop ops DbgMsg.read_error (c.NVM_CHECKSUM_REG + 1) 0 0 nvm_data s
  match l.1 with
  | some ret_val => (ret_val, l.2.2)
  | none =>
    if l.2.1 ≠ c.NVM_SUM % 2 ^ 16 then (ERR_NVM c, ops.e_dbg DbgMsg.checksum_invalid l.2.2)
    else (E1000_SUCCESS, l.2.2)

/-- `e1000e_update_nvm_checksum_generic(hw)`. -/
def e1000e_update_nvm_checksum_generic {σ : Type} (c : Defines)
    (ops : e1000_nvm_operations σ) (nvm_data : Nat) (s : σ) : Int × σ :=
  let l := nvm_checksum_loop ops DbgMsg.read_error_updating c.NVM_CHECKSUM_REG 0 0 nvm_data s
  match l.1 with
  | some ret_val => (ret_val, l.2.2)
  | none =>
    let checksum := (c.NVM_SUM % 2 ^ 16 + 2 ^ 16 - l.2.1) % 2 ^ 16
    let w := ops.e1000_write_nvm c.NVM_CHECKSUM_REG 1 [checksum] l.2.2
    if w.1 ≠ 0 then (w.1, ops.e_dbg DbgMsg.write_error_updating w.2) else (w.1, w.2)

/-! ## Observation of traces -/

/-- The values written to register `r` in the trace, in chronological order. -/
def reg_writes (r : Reg) (t : List Event) : List Nat :=
  t.reverse.filterMap (fun e => match e with
    | Event.ew32 r2 v => if r2 = r then some v else none
    | _ => none)

/-- The values read from register `r` in the trace, in chronological order. -/
def reg_reads (r : Reg) (t : List Event) : List Nat :=
  t.reverse.filterMap (fun e => match e with
    | Event.er32 r2 v => if r2 = r then some v else none
    | _ => none)

/-- The values read from register `r` in the trace `t2` after its older part
`t`, in chronological order. -/
def new_reads (r : Reg) (t t2 : List Event) : List Nat :=
  (reg_reads r t2).drop (reg_reads r t).length

/-- The calls of `nvm->ops.acquire` and `nvm->ops.release` in the trace, in
chronological order. -/
def ops_calls (t : List Event) : List Event :=
  t.reverse.filter (fun e => match e with
    | Event.ops_acquire _ => true
    | Event.ops_release => true
    | _ => false)

/-- The number of register reads in a trace. -/
def read_count (t : List Event) : Nat :=
  t.countP (fun e => match e with
    | Event.er32 _ _ => true
    | _ => false)

/-- The data bits clocked into the EEPROM: the DI bit of every value written
to EECD that raises SK, given the EECD values written in order and the value
`prev` written before them. -/
def clocked_di (c : Defines) : Nat → List Nat → List Bool
  | _, [] => []
  | prev, v :: vs =>
    if prev &&& c.E1000_EECD_SK = 0 ∧ v &&& c.E1000_EECD_SK ≠ 0 then
      decide (v &&& c.E1000_EECD_DI ≠ 0) :: clocked_di c v vs
    else clocked_di c v vs

/-- Groups a bit sequence into bytes, most significant bit first. -/
def bits_to_bytes : List Bool → List Nat
  | b7 :: b6 :: b5 :: b4 :: b3 :: b2 :: b1 :: b0 :: rest =>
    (128 * b7.toNat + 64 * b6.toNat + 32 * b5.toNat + 16 * b4.toNat + 8 * b3.toNat
      + 4 * b2.toNat + 2 * b1.toNat + b0.toNat) :: bits_to_bytes rest
  | _ => []

/-- The bytes clocked into the EEPROM over the trace, SK being low at its
start. -/
def spi_bytes (c : Defines) (t : List Event) : List Nat :=
  bits_to_bytes (clocked_di c 0 (reg_writes Reg.EECD t))

/-! ## Environments and concrete values -/

/-- An environment that answers the register reads with a given sequence of
values: the `n`-th read of the history (counted from 0) returns `f n`; the bus
is granted to `ops.acquire`. -/
def stream_env (f : Nat → Nat) : Env :=
  ⟨fun h _ => f (read_count h), fun _ => 0⟩

/-- An EEPROM that is never busy and a bus that is always granted: every
register reads as zero. -/
def idle_env : Env :=
  ⟨fun _ _ => 0, fun _ => 0⟩

/-- A device that completes every register-assisted read at once: EERD reads
as 0x12340002, the DONE bit with the data field 0x1234. -/
def eerd_done_env : Env :=
  ⟨fun _ _ => 0x12340002, fun _ => 0⟩

/-- The values the macros have in the header of the e1000e driver, for the
concrete evaluations: SK, CS, DI, DO, REQ and GNT are the bits 0, 1, 2, 3, 6
and 7 of EECD, the checksum register is word 0x3F and the checksum 0xBABA. -/
def e1000_defines : Defines :=
  ⟨0x1, 0x2, 0x4, 0x8, 0x40, 0x80, 1000, 0, 16, 2, 1, 2, 5000, 0x05, 0x06, 0x02, 0x08, 0x01,
    0x3F, 0xBABA, 1, 2⟩

/-- The same values with 3 grant attempts instead of 1000, to keep a concrete
run of `e1000e_acquire_nvm` that times out short. -/
def e1000_defines_3_attempts : Defines :=
  ⟨0x1, 0x2, 0x4, 0x8, 0x40, 0x80, 3, 0, 16, 2, 1, 2, 5000, 0x05, 0x06, 0x02, 0x08, 0x01,
    0x3F, 0xBABA, 1, 2⟩

/-- The same values with a single retry of the status poll instead of 5000,
to keep a concrete run of `e1000_ready_nvm_eeprom` that times out short. -/
def e1000_defines_1_retry : Defines :=
  ⟨0x1, 0x2, 0x4, 0x8, 0x40, 0x80, 1000, 0, 16, 2, 1, 2, 1, 0x05, 0x06, 0x02, 0x08, 0x01,
    0x3F, 0xBABA, 1, 2⟩

/-- An EEPROM that stays busy: DO (0x8) is high at every read, so every status
byte is 0xFF; the bus is granted. -/
def busy_env : Env :=
  ⟨fun _ _ => 0x8, fun _ => 0⟩

/-- A sequence of register values in which only the value of read 1001 has the
GNT bit (0x80) set. -/
def gnt_at_last_poll (n : Nat) : Nat :=
  if n = 1001 then 0x80 else 0

/-- A descriptor of an SPI EEPROM of 256 words with 8 address bits, 8 opcode
bits and pages of 32 bytes. -/
def nvm_spi_256 : e1000_nvm_info :=
  ⟨2, 256, 8, 8, 32, 1⟩

/-! ## A simulated NVM for the checksum layer -/

/-- A simulated NVM: the stored 16-bit words and the log of the calls of the
write operation (offset and words written). -/
structure NvmArray where
  words : List Nat
  writes : List (Nat × List Nat)

/-- The read operation of the simulated NVM: it succeeds when the words asked
for are stored, and copies them to the front of the buffer. -/
def nvm_array_read (c : Defines) (offset words : Nat) (data : List Nat) (s : NvmArray) :
    Int × List Nat × NvmArray :=
  if offset + words ≤ s.words.length ∧ 0 < words then
    (E1000_SUCCESS,
      ((s.words.drop offset).take words).map (fun w => w % 2 ^ 16) ++ data.drop words, s)
  else (ERR_NVM c, data, s)

/-- The write operation of the simulated NVM: it succeeds when the words
addressed are stored, replaces them by the words of the buffer and logs the
call. -/
def nvm_array_write (c : Defines) (offset words : Nat) (data : List Nat) (s : NvmArray) :
    Int × NvmArray :=
  if offset + words ≤ s.words.length ∧ 0 < words ∧ words ≤ data.length then
    (E1000_SUCCESS,
      ⟨s.words.take offset ++ data.take words ++ s.words.drop (offset + words),
        s.writes ++ [(offset, data.take words)]⟩)
  else (ERR_NVM c, s)

/-- The simulated NVM as the operations behind `e1000_read_nvm` and
`e1000_write_nvm`; diagnostics are discarded. -/
def nvm_array_ops (c : Defines) : e1000_nvm_operations NvmArray :=
  ⟨nvm_array_read c, nvm_array_write c, fun _ s => s⟩

/-- The sum, modulo 2^16, of the first `n` stored words. -/
def nvm_array_sum (s : NvmArray) (n : Nat) : Nat :=
  (s.words.take n).sum % 2 ^ 16

/-- A content of 64 words whose first 63 words sum to 0x0050. -/
def nvm_sum_0050 : NvmArray :=
  ⟨0x0050 :: List.replicate 63 0, []⟩

/-- A content of 64 words that sum to 0xBABA. -/
def nvm_sum_baba : NvmArray :=
  ⟨0xBABA :: List.replicate 63 0, []⟩

/-! ## The run of the register-assisted read, word by word -/

/-- The trace at the start of the iteration of the loop of
`e1000e_read_nvm_eerd` for word `i`, when the completion polls of the words
before `i` have succeeded: each of them wrote its trigger, polled and read the
data register. -/
def eerd_word_start (c : Defines) (env : Env) (offset : Nat) (t : List Event) : Nat → List Event
  | 0 => t
  | i + 1 =>
    (er32 env Reg.EERD (e1000e_poll_eerd_eewr_done c env c.E1000_NVM_POLL_READ
      (ew32 Reg.EERD (eerd_trigger c offset i) (eerd_word_start c env offset t i))).2).2

/-- The completion poll of word `i`: its result and the trace after it. -/
def eerd_poll (c : Defines) (env : Env) (offset : Nat) (t : List Event) (i : Nat) :
    Int × List Event :=
  e1000e_poll_eerd_eewr_done c env c.E1000_NVM_POLL_READ
    (ew32 Reg.EERD (eerd_trigger c offset i) (eerd_word_start c env offset t i))

/-- The value of EERD read after the completion poll of word `i`. -/
def eerd_value (c : Defines) (env : Env) (offset : Nat) (t : List Event) (i : Nat) : Nat :=
  (er32 env Reg.EERD (eerd_poll c env offset t i).2).1

/-- The buffer after the data fields of the words before `m` have been
stored. -/
def eerd_data (c : Defines) (env : Env) (offset : Nat) (t : List Event) (data : List Nat) :
    Nat → List Nat
  | 0 => data
  | m + 1 => (eerd_data c env offset t data m).set m
      ((eerd_value c env offset t m >>> c.E1000_NVM_RW_REG_DATA) % 2 ^ 16)

/-- One pass of the outer loop of `e1000e_write_nvm_spi` in which
`e1000_ready_nvm_eeprom` succeeds: from `widx` and the trace at the start of
the pass to `widx` and the trace at its end (after the standby, the WRITE
ENABLE, the standby, the WRITE opcode, the address and the words of the
page). -/
def write_spi_cmd (c : Defines) (env : Env) (nvm : e1000_nvm_info)
    (offset words : Nat) (data : List Nat) (s : Nat × List Event) : Nat × List Event :=
  let r := e1000_ready_nvm_eeprom c env nvm s.2
  let t := e1000_standby_nvm c env nvm r.2
  let t := e1000_shift_out_eec_bits c env nvm c.NVM_WREN_OPCODE_SPI nvm.opcode_bits t
  let t := e1000_standby_nvm c env nvm t
  let write_opcode :=
    if nvm.address_bits = 8 ∧ offset ≥ 128 then c.NVM_WRITE_OPCODE_SPI ||| c.NVM_A8_OPCODE_SPI
    else c.NVM_WRITE_OPCODE_SPI
  let t := e1000_shift_out_eec_bits c env nvm write_opcode nvm.opcode_bits t
  let t := e1000_shift_out_eec_bits c env nvm (((offset + s.1) * 2) % 2 ^ 16)
    nvm.address_bits t
  e1000e_write_nvm_spi_page c env nvm offset words data (words - s.1) s.1 t

/-- The `widx` and the trace at the start of pass `j` of the outer loop of
`e1000e_write_nvm_spi` entered with `s`, when `e1000_ready_nvm_eeprom` has
succeeded in the passes before `j`. -/
def write_spi_cmd_start (c : Defines) (env : Env) (nvm : e1000_nvm_info)
    (offset words : Nat) (data : List Nat) : Nat → Nat × List Event → Nat × List Event
  | 0, s => s
  | j + 1, s =>
    write_spi_cmd_start c env nvm offset words data j (write_spi_cmd c env nvm offset words data s)

/-! # Theorems -/

/-! ## Observation of the primitives -/

theorem reg_writes_er32 (env : Env) (r r2 : Reg) (t : List Event) :
    reg_writes r (er32 env r2 t).2 = reg_writes r t := by
  simp [er32, reg_writes, List.filterMap_append]

theorem reg_writes_ew32 (r : Reg) (v : Nat) (t : List Event) :
    reg_writes r (ew32 r v t) = reg_writes r t ++ [v] := by
  simp [ew32, reg_writes, List.filterMap_append]

theorem reg_writes_udelay (r : Reg) (n : Nat) (t : List Event) :
    reg_writes r (udelay n t) = reg_writes r t := by
  simp [udelay, reg_writes, List.filterMap_append]

theorem reg_writes_dbg (r : Reg) (m : DbgMsg) (t : List Event) :
    reg_writes r (e_dbg m t) = reg_writes r t := by
  simp [e_dbg, reg_writes, List.filterMap_append]

theorem reg_reads_er32 (env : Env) (r : Reg) (t : List Event) :
    reg_reads r (er32 env r t).2 = reg_reads r t ++ [(er32 env r t).1] := by
  simp [er32, reg_reads, List.filterMap_append]

theorem reg_reads_ew32 (r r2 : Reg) (v : Nat) (t : List Event) :
    reg_reads r (ew32 r2 v t) = reg_reads r t := by
  simp [ew32, reg_reads, List.filterMap_append]

theorem reg_reads_udelay (r : Reg) (n : Nat) (t : List Event) :
    reg_reads r (udelay n t) = reg_reads r t := by
  simp [udelay, reg_reads, List.filterMap_append]

theorem reg_reads_dbg (r : Reg) (m : DbgMsg) (t : List Event) :
    reg_reads r (e_dbg m t) = reg_reads r t := by
  simp [e_dbg, reg_reads, List.filterMap_append]

theorem ops_calls_er32 (env : Env) (r : Reg) (t : List Event) :
    ops_calls (er32 env r t).2 = ops_calls t := by
  simp [ops_calls, er32, List.filter_append]

theorem ops_calls_ew32 (r : Reg) (v : Nat) (t : List Event) :
    ops_calls (ew32 r v t) = ops_calls t := by
  simp [ops_calls, ew32, List.filter_append]

theorem ops_calls_flush (t : List Event) : ops_calls (e1e_flush t) = ops_calls t := by
  simp [ops_calls, e1e_flush, List.filter_append]

theorem ops_calls_udelay (n : Nat) (t : List Event) : ops_calls (udelay n t) = ops_calls t := by
  simp [ops_calls, udelay, List.filter_append]

theorem ops_calls_msleep (n : Nat) (t : List Event) : ops_calls (msleep n t) = ops_calls t := by
  simp [ops_calls, msleep, List.filter_append]

theorem ops_calls_dbg (m : DbgMsg) (t : List Event) : ops_calls (e_dbg m t) = ops_calls t := by
  simp [ops_calls, e_dbg, List.filter_append]

theorem ops_calls_acquire (env : Env) (t : List Event) :
    ops_calls (ops_acquire env t).2 = ops_calls t ++ [Event.ops_acquire (env.acquire t)] := by
  simp [ops_calls, ops_acquire, List.filter_append]

theorem ops_calls_release (t : List Event) :
    ops_calls (ops_release t) = ops_calls t ++ [Event.ops_release] := by
  simp [ops_calls, ops_release, List.filter_append]

theorem read_count_er32 (env : Env) (r : Reg) (t : List Event) :
    read_count (er32 env r t).2 = read_count t + 1 := by
  simp [read_count, er32]

theorem read_count_ew32 (r : Reg) (v : Nat) (t : List Event) :
    read_count (ew32 r v t) = read_count t := by
  simp [read_count, ew32]

theorem read_count_udelay (n : Nat) (t : List Event) :
    read_count (udelay n t) = read_count t := by
  simp [read_count, udelay]

/-! ## Bit masks -/

theorem and_not32_self (x m : Nat) : (x &&& not32 m) &&& m = 0 := by
  apply Nat.eq_of_testBit_eq
  intro i
  simp only [not32, Nat.testBit_land, Nat.testBit_xor, Nat.testBit_mod_two_pow, Nat.zero_testBit]
  have h : (0xFFFFFFFF : Nat) = 2 ^ 32 - 1 := by norm_num
  rw [h, Nat.testBit_two_pow_sub_one]
  by_cases h32 : i < 32 <;> cases x.testBit i <;> cases m.testBit i <;> simp [h32]

theorem nvm_out_of_bounds_iff (nvm : e1000_nvm_info) (offset words : Nat) :
    nvm_out_of_bounds nvm offset words = true ↔
      (offset ≥ nvm.word_size ∨ words = 0 ∨ offset + words > nvm.word_size) := by
  unfold nvm_out_of_bounds
  simp only [Bool.or_eq_true, decide_eq_true_eq]
  omega

/-- Claim C1: when `offset >= word_size`, or `words == 0`, or
`offset + words > word_size`, both `e1000e_read_nvm_eerd` and
`e1000e_write_nvm_spi` return `-E1000_ERR_NVM`; the only event they add to the
trace is the diagnostic message, so that no register is written (no EERD
trigger, no EECD write) and neither `ops.acquire` nor `ops.release` is
called; the read leaves the buffer as it was. -/
theorem nvm_bounds_rejected_before_hardware (c : Defines) (env : Env) (nvm : e1000_nvm_info)
    (offset words : Nat) (data : List Nat) (t : List Event)
    (h : offset ≥ nvm.word_size ∨ words = 0 ∨ offset + words > nvm.word_size) :
    e1000e_read_nvm_eerd c env nvm offset words data t
        = (ERR_NVM c, data, Event.e_dbg DbgMsg.out_of_bounds :: t) ∧
    e1000e_write_nvm_spi c env nvm offset words data t
        = (ERR_NVM c, Event.e_dbg DbgMsg.out_of_bounds :: t) ∧
    (∀ r, reg_writes r (e1000e_read_nvm_eerd c env nvm offset words data t).2.2
        = reg_writes r t) ∧
    (∀ r, reg_writes r (e1000e_write_nvm_spi c env nvm offset words data t).2
        = reg_writes r t) ∧
    ops_calls (e1000e_read_nvm_eerd c env nvm offset words data t).2.2 = ops_calls t ∧
    ops_calls (e1000e_write_nvm_spi c env nvm offset words data t).2 = ops_calls t := by
  have hb := (nvm_out_of_bounds_iff nvm offset words).2 h
  have hr : e1000e_read_nvm_eerd c env nvm offset words data t
      = (ERR_NVM c, data, e_dbg DbgMsg.out_of_bounds t) := by
    simp [e1000e_read_nvm_eerd, hb]
  have hw : e1000e_write_nvm_spi c env nvm offset words data t
      = (ERR_NVM c, e_dbg DbgMsg.out_of_bounds t) := by
    simp [e1000e_write_nvm_spi, hb]
  rw [hr, hw]
  exact ⟨rfl, rfl, fun r => reg_writes_dbg r _ t, fun r => reg_writes_dbg r _ t,
    ops_calls_dbg _ t, ops_calls_dbg _ t⟩

/-- Claim C1 at a concrete input: 2 words at offset 255 of an EEPROM of 256
words. -/
theorem nvm_bounds_rejected_before_hardware_witness :
    e1000e_read_nvm_eerd e1000_defines idle_env nvm_spi_256 255 2 [7, 9] []
        = (-1, [7, 9], [Event.e_dbg DbgMsg.out_of_bounds]) ∧
    e1000e_write_nvm_spi e1000_defines idle_env nvm_spi_256 255 2 [7, 9] []
        = (-1, [Event.e_dbg DbgMsg.out_of_bounds]) :=
  ⟨(nvm_bounds_rejected_before_hardware e1000_defines idle_env nvm_spi_256 255 2 [7, 9] []
      (Or.inr (Or.inr (by decide)))).1,
    (nvm_bounds_rejected_before_hardware e1000_defines idle_env nvm_spi_256 255 2 [7, 9] []
      (Or.inr (Or.inr (by decide)))).2.1⟩

/-! ## Checksum layer on the simulated NVM -/

theorem nvm_array_read_one (c : Defines) (i nd : Nat) (s : NvmArray) (h : i < s.words.length) :
    nvm_array_read c i 1 [nd] s = (E1000_SUCCESS, [s.words[i] % 2 ^ 16], s) := by
  unfold nvm_array_read
  rw [if_pos ⟨by omega, by omega⟩, List.drop_eq_getElem_cons h]
  simp only [List.take_succ_cons, List.take_zero, List.map_cons, List.map_nil,
    List.drop_succ_cons, List.drop_zero, List.append_nil]

theorem nvm_array_write_one (c : Defines) (i v : Nat) (s : NvmArray) (h : i < s.words.length) :
    nvm_array_write c i 1 [v] s = (E1000_SUCCESS, ⟨s.words.set i v, s.writes ++ [(i, [v])]⟩) := by
  unfold nvm_array_write
  rw [if_pos ⟨by omega, by omega, by simp⟩]
  simp only [List.take_succ_cons, List.take_zero, Prod.mk.injEq, true_and, NvmArray.mk.injEq,
    and_true]
  rw [List.set_eq_take_append_cons_drop]
  simp [h]

theorem nvm_checksum_loop_array (c : Defines) (msg : DbgMsg) (n : Nat) :
    ∀ (i checksum nvm_data : Nat) (s : NvmArray), i + n ≤ s.words.length →
      checksum < 2 ^ 16 →
      nvm_checksum_loop (nvm_array_ops c) msg n i checksum nvm_data s
        = (none, (checksum + ((s.words.drop i).take n).sum) % 2 ^ 16, s) := by
  induction n with
  | zero =>
    intro i checksum nvm_data s _ hc
    simp only [nvm_checksum_loop, List.take_zero, List.sum_nil, Nat.add_zero]
    rw [Nat.mod_eq_of_lt hc]
  | succ n ih =>
    intro i checksum nvm_data s h _
    have hi : i < s.words.length := by omega
    rw [nvm_checksum_loop]
    simp only [nvm_array_ops, nvm_array_read_one c i nvm_data s hi]
    simp only [E1000_SUCCESS, ne_eq, not_true_eq_false, if_false, List.getD_cons_zero]
    have := ih (i + 1) ((checksum + s.words[i] % 2 ^ 16) % 2 ^ 16) (s.words[i] % 2 ^ 16) s
      (by omega) (Nat.mod_lt _ (by norm_num))
    simp only [nvm_array_ops] at this
    rw [this, List.drop_eq_getElem_cons hi, List.take_succ_cons, List.sum_cons]
    simp only [Nat.reducePow]
    congr 2
    generalize (List.take n (List.drop (i + 1) s.words)).sum = S
    generalize s.words[i] = w
    omega

theorem validate_array (c : Defines) (nvm_data : Nat) (s : NvmArray)
    (h : c.NVM_CHECKSUM_REG < s.words.length) :
    e1000e_validate_nvm_checksum_generic c (nvm_array_ops c) nvm_data s
      = (if nvm_array_sum s (c.NVM_CHECKSUM_REG + 1) = c.NVM_SUM % 2 ^ 16 then E1000_SUCCESS
          else ERR_NVM c, s) := by
  unfold e1000e_validate_nvm_checksum_generic
  rw [nvm_checksum_loop_array c _ _ 0 0 nvm_data s (by omega) (by norm_num)]
  simp only [List.drop_zero, Nat.zero_add, nvm_array_sum, nvm_array_ops]
  split_ifs <;> simp_all

theorem update_array (c : Defines) (nvm_data : Nat) (s : NvmArray)
    (h : c.NVM_CHECKSUM_REG < s.words.length) :
    e1000e_update_nvm_checksum_generic c (nvm_array_ops c) nvm_data s
      = (E1000_SUCCESS,
          ⟨s.words.set c.NVM_CHECKSUM_REG
              ((c.NVM_SUM % 2 ^ 16 + 2 ^ 16 - nvm_array_sum s c.NVM_CHECKSUM_REG) % 2 ^ 16),
            s.writes ++ [(c.NVM_CHECKSUM_REG,
              [(c.NVM_SUM % 2 ^ 16 + 2 ^ 16 - nvm_array_sum s c.NVM_CHECKSUM_REG) % 2 ^ 16])]⟩) := by
  unfold e1000e_update_nvm_checksum_generic
  rw [nvm_checksum_loop_array c _ _ 0 0 nvm_data s (by omega) (by norm_num)]
  simp only [List.drop_zero, Nat.zero_add, nvm_array_sum]
  simp only [nvm_array_ops, nvm_array_write_one c _ _ s h]
  simp [E1000_SUCCESS]

theorem sum_take_set (l : List Nat) (n v : Nat) (h : n < l.length) :
    ((l.set n v).take (n + 1)).sum = (l.take n).sum + v := by
  rw [List.sum_take_succ _ _ (by simpa using h), List.getElem_set_self, List.set_take]
  congr 1
  rw [List.set_eq_of_length_le (by simp)]

/-- Claim C2: on an NVM content on which every single-word read of the offsets
0 to `NVM_CHECKSUM_REG` succeeds, `e1000e_validate_nvm_checksum_generic`
returns `E1000_SUCCESS` if and only if the sum of the words at the offsets 0
to `NVM_CHECKSUM_REG` inclusive is 0xBABA modulo 2^16, and returns
`-E1000_ERR_NVM` otherwise (`NVM_SUM` being 0xBABA and `E1000_ERR_NVM`
nonzero). -/
theorem validate_checksum_iff_sum_baba (c : Defines) (nvm_data : Nat) (s : NvmArray)
    (hread : ∀ i, i ≤ c.NVM_CHECKSUM_REG → ∀ d,
      (nvm_array_read c i 1 [d] s).1 = E1000_SUCCESS)
    (hsum : c.NVM_SUM = 0xBABA) (herr : c.E1000_ERR_NVM ≠ 0) :
    ((e1000e_validate_nvm_checksum_generic c (nvm_array_ops c) nvm_data s).1 = E1000_SUCCESS
        ↔ (s.words.take (c.NVM_CHECKSUM_REG + 1)).sum % 2 ^ 16 = 0xBABA) ∧
    ((s.words.take (c.NVM_CHECKSUM_REG + 1)).sum % 2 ^ 16 ≠ 0xBABA →
      (e1000e_validate_nvm_checksum_generic c (nvm_array_ops c) nvm_data s).1 = ERR_NVM c) := by
  have herr2 : ERR_NVM c ≠ E1000_SUCCESS := by
    simp only [ERR_NVM, E1000_SUCCESS, ne_eq, neg_eq_zero]
    exact_mod_cast herr
  have hlen : c.NVM_CHECKSUM_REG < s.words.length := by
    by_contra hcon
    have h1 := hread c.NVM_CHECKSUM_REG (Nat.le_refl _) 0
    unfold nvm_array_read at h1
    rw [if_neg (by omega)] at h1
    exact herr2 h1
  rw [validate_array c nvm_data s hlen, hsum]
  simp only [nvm_array_sum]
  by_cases hs : (s.words.take (c.NVM_CHECKSUM_REG + 1)).sum % 2 ^ 16 = 0xBABA
  · have hs2 : (s.words.take (c.NVM_CHECKSUM_REG + 1)).sum % 2 ^ 16 = 0xBABA % 2 ^ 16 := hs
    rw [if_pos hs2]
    exact ⟨⟨fun _ => hs, fun _ => rfl⟩, fun h => absurd hs h⟩
  · have hs2 : ¬ (s.words.take (c.NVM_CHECKSUM_REG + 1)).sum % 2 ^ 16 = 0xBABA % 2 ^ 16 := hs
    rw [if_neg hs2]
    exact ⟨⟨fun h => absurd h herr2, fun h => absurd h hs⟩, fun _ => rfl⟩

/-- Claim C2 at a concrete input: a content of 64 words that sum to 0xBABA
passes the validation. -/
theorem validate_checksum_iff_sum_baba_witness :
    (e1000e_validate_nvm_checksum_generic e1000_defines (nvm_array_ops e1000_defines) 0
      nvm_sum_baba).1 = E1000_SUCCESS :=
  (validate_checksum_iff_sum_baba e1000_defines 0 nvm_sum_baba
    (fun i hi d => by
      have h63 : i ≤ 63 := hi
      have hl : i + 1 ≤ nvm_sum_baba.words.length ∧ 0 < 1 :=
        ⟨by simp [nvm_sum_baba]; omega, Nat.one_pos⟩
      simp only [nvm_array_read, if_pos hl])
    rfl (by decide)).1.2 (by decide)

/-- Claim C3: on an NVM modelled as an array of more than `NVM_CHECKSUM_REG`
words, `e1000e_update_nvm_checksum_generic` followed by
`e1000e_validate_nvm_checksum_generic` makes the validation return
`E1000_SUCCESS`, and the update keeps the number of words and changes no word
other than the one at `NVM_CHECKSUM_REG`. -/
theorem update_then_validate_succeeds (c : Defines) (nvm_data nvm_data2 : Nat) (s : NvmArray)
    (hlen : c.NVM_CHECKSUM_REG < s.words.length) :
    (e1000e_validate_nvm_checksum_generic c (nvm_array_ops c) nvm_data2
      (e1000e_update_nvm_checksum_generic c (nvm_array_ops c) nvm_data s).2).1 = E1000_SUCCESS ∧
    (e1000e_update_nvm_checksum_generic c (nvm_array_ops c) nvm_data s).2.words.length
      = s.words.length ∧
    ∀ j, j ≠ c.NVM_CHECKSUM_REG →
      (e1000e_update_nvm_checksum_generic c (nvm_array_ops c) nvm_data s).2.words[j]?
        = s.words[j]? := by
  rw [update_array c nvm_data s hlen]
  refine ⟨?_, by simp, fun j hj => by simp [List.getElem?_set_ne (Ne.symm hj)]⟩
  rw [validate_array c nvm_data2 _ (by simpa using hlen)]
  simp only [nvm_array_sum, sum_take_set _ _ _ hlen]
  rw [if_pos]
  simp only [Nat.reducePow]
  omega

/-- Claim C3 at a concrete input: the content of 64 words that starts with
0x0050 validates after the update. -/
theorem update_then_validate_succeeds_witness :
    (e1000e_validate_nvm_checksum_generic e1000_defines (nvm_array_ops e1000_defines) 0
      (e1000e_update_nvm_checksum_generic e1000_defines (nvm_array_ops e1000_defines) 0
        nvm_sum_0050).2).1 = E1000_SUCCESS :=
  (update_then_validate_succeeds e1000_defines 0 0 nvm_sum_0050 (by decide)).1

/-- Claim C4 as stated fails: with the words before the checksum register
summing to 0x0050, `e1000e_update_nvm_checksum_generic` succeeds and writes
one word at offset 0x3F, and that word is 0xBA6A, not 0xBB6A. -/
theorem update_checksum_0050_not_bb6a :
    (nvm_sum_0050.words.take e1000_defines.NVM_CHECKSUM_REG).sum % 2 ^ 16 = 0x0050 ∧
    (e1000e_update_nvm_checksum_generic e1000_defines (nvm_array_ops e1000_defines) 0
      nvm_sum_0050).1 = E1000_SUCCESS ∧
    (e1000e_update_nvm_checksum_generic e1000_defines (nvm_array_ops e1000_defines) 0
      nvm_sum_0050).2.writes = [(0x3F, [0xBA6A])] ∧
    (e1000e_update_nvm_checksum_generic e1000_defines (nvm_array_ops e1000_defines) 0
      nvm_sum_0050).2.writes ≠ [(0x3F, [0xBB6A])] := by
  decide

/-- Claim C4 as amended: when the words at all offsets before the checksum
register sum to 0x0050 modulo 2^16 and the reads and the write succeed,
`e1000e_update_nvm_checksum_generic` returns `E1000_SUCCESS` and its only
write is of the one word 0xBA6A, which is 0xBABA - 0x0050, at the offset
`NVM_CHECKSUM_REG`. -/
theorem update_checksum_0050_writes_ba6a (c : Defines) (nvm_data : Nat) (s : NvmArray)
    (hlen : c.NVM_CHECKSUM_REG < s.words.length) (hsum : c.NVM_SUM = 0xBABA)
    (h50 : (s.words.take c.NVM_CHECKSUM_REG).sum % 2 ^ 16 = 0x0050) :
    (e1000e_update_nvm_checksum_generic c (nvm_array_ops c) nvm_data s).1 = E1000_SUCCESS ∧
    (e1000e_update_nvm_checksum_generic c (nvm_array_ops c) nvm_data s).2.writes
      = s.writes ++ [(c.NVM_CHECKSUM_REG, [0xBA6A])] ∧
    (e1000e_update_nvm_checksum_generic c (nvm_array_ops c) nvm_data s).2.words
      = s.words.set c.NVM_CHECKSUM_REG 0xBA6A := by
  rw [update_array c nvm_data s hlen]
  simp only [nvm_array_sum, h50, hsum]
  norm_num

/-- Claim C4 as amended, at a concrete input. -/
theorem update_checksum_0050_writes_ba6a_witness :
    (e1000e_update_nvm_checksum_generic e1000_defines (nvm_array_ops e1000_defines) 0
      nvm_sum_0050).2.words = nvm_sum_0050.words.set 0x3F 0xBA6A :=
  (update_checksum_0050_writes_ba6a e1000_defines 0 nvm_sum_0050 (by decide) rfl
    (by decide)).2.2

/-! ## Arbitration -/

theorem acquire_loop_reads (c : Defines) (env : Env) (n : Nat) :
    ∀ (eecd : Nat) (t : List Event), ∃ vs,
      reg_reads Reg.EECD (e1000e_acquire_nvm_loop c env n eecd t).2.2
        = reg_reads Reg.EECD t ++ vs ∧
      reg_writes Reg.EECD (e1000e_acquire_nvm_loop c env n eecd t).2.2
        = reg_writes Reg.EECD t ∧
      (eecd &&& c.E1000_EECD_GNT = 0 → (∀ v ∈ vs, v &&& c.E1000_EECD_GNT = 0) →
        (e1000e_acquire_nvm_loop c env n eecd t).1 = 0) := by
  induction n with
  | zero => intro eecd t; exact ⟨[], by simp [e1000e_acquire_nvm_loop]⟩
  | succ n ih =>
    intro eecd t
    by_cases hg : eecd &&& c.E1000_EECD_GNT = 0
    · obtain ⟨vs, h1, h2, h3⟩ := ih (er32 env Reg.EECD (udelay 5 t)).1
        (er32 env Reg.EECD (udelay 5 t)).2
      refine ⟨(er32 env Reg.EECD (udelay 5 t)).1 :: vs, ?_, ?_, ?_⟩
      · simp only [e1000e_acquire_nvm_loop, hg, ne_eq, not_true_eq_false, if_false]
        rw [h1, reg_reads_er32, reg_reads_udelay]
        simp
      · simp only [e1000e_acquire_nvm_loop, hg, ne_eq, not_true_eq_false, if_false]
        rw [h2, reg_writes_er32, reg_writes_udelay]
      · intro _ hall
        simp only [e1000e_acquire_nvm_loop, hg, ne_eq, not_true_eq_false, if_false]
        exact h3 (hall _ (List.mem_cons_self _ _))
          (fun v hv => hall v (List.mem_cons_of_mem _ hv))
    · exact ⟨[], by simp [e1000e_acquire_nvm_loop, hg], by simp [e1000e_acquire_nvm_loop, hg],
        fun h => absurd h hg⟩

/-- Claim C6: if the GNT bit is set in none of the EECD values that
`e1000e_acquire_nvm` reads, the call returns `-E1000_ERR_NVM` and the last
value written to EECD has the REQ bit clear, so a register that holds the
last value written has the request bit clear after the failed call. -/
theorem acquire_failure_clears_req (c : Defines) (env : Env) (t : List Event)
    (hgnt : ∀ v ∈ new_reads Reg.EECD t (e1000e_acquire_nvm c env t).2,
      v &&& c.E1000_EECD_GNT = 0) :
    (e1000e_acquire_nvm c env t).1 = ERR_NVM c ∧
    ∃ v, (reg_writes Reg.EECD (e1000e_acquire_nvm c env t).2).getLast? = some v ∧
      v &&& c.E1000_EECD_REQ = 0 := by
  obtain ⟨vs, h1, h2, h3⟩ := acquire_loop_reads c env c.E1000_NVM_GRANT_ATTEMPTS
    (er32 env Reg.EECD (ew32 Reg.EECD ((er32 env Reg.EECD t).1 ||| c.E1000_EECD_REQ)
      (er32 env Reg.EECD t).2)).1
    (er32 env Reg.EECD (ew32 Reg.EECD ((er32 env Reg.EECD t).1 ||| c.E1000_EECD_REQ)
      (er32 env Reg.EECD t).2)).2
  have hnr : new_reads Reg.EECD t (e1000e_acquire_nvm c env t).2
      = (er32 env Reg.EECD t).1 ::
        (er32 env Reg.EECD (ew32 Reg.EECD ((er32 env Reg.EECD t).1 ||| c.E1000_EECD_REQ)
          (er32 env Reg.EECD t).2)).1 :: vs := by
    simp only [e1000e_acquire_nvm, new_reads]
    split_ifs <;>
      simp only [reg_reads_dbg, reg_reads_ew32, h1, reg_reads_er32, List.append_assoc,
        List.drop_left, List.singleton_append, List.cons_append, List.nil_append]
  rw [hnr] at hgnt
  have hz := h3 (hgnt _ (List.mem_cons_of_mem _ (List.mem_cons_self _ _)))
    (fun v hv => hgnt v (List.mem_cons_of_mem _ (List.mem_cons_of_mem _ hv)))
  simp only [e1000e_acquire_nvm, if_pos hz, true_and]
  refine ⟨(e1000e_acquire_nvm_loop c env c.E1000_NVM_GRANT_ATTEMPTS
      (er32 env Reg.EECD (ew32 Reg.EECD ((er32 env Reg.EECD t).1 ||| c.E1000_EECD_REQ)
        (er32 env Reg.EECD t).2)).1
      (er32 env Reg.EECD (ew32 Reg.EECD ((er32 env Reg.EECD t).1 ||| c.E1000_EECD_REQ)
        (er32 env Reg.EECD t).2)).2).2.1 &&& not32 c.E1000_EECD_REQ, ?_, and_not32_self _ _⟩
  rw [reg_writes_dbg, reg_writes_ew32]
  simp

/-- Claim C6 at a concrete input: a bus that is never granted. -/
theorem acquire_failure_clears_req_witness :
    (e1000e_acquire_nvm e1000_defines_3_attempts idle_env []).1 = -1 ∧
    ∃ v, (reg_writes Reg.EECD (e1000e_acquire_nvm e1000_defines_3_attempts idle_env []).2).getLast?
        = some v ∧ v &&& 0x40 = 0 :=
  acquire_failure_clears_req e1000_defines_3_attempts idle_env [] (by decide)

theorem er32_stream_fst (f : Nat → Nat) (r : Reg) (t : List Event) :
    (er32 (stream_env f) r t).1 = f (read_count t) % 2 ^ 32 := rfl

theorem acquire_loop_stream (c : Defines) (f : Nat → Nat) (n : Nat) :
    ∀ (eecd : Nat) (t : List Event), (0 < n → eecd &&& c.E1000_EECD_GNT = 0) →
      (∀ j, j + 1 < n → f (read_count t + j) % 2 ^ 32 &&& c.E1000_EECD_GNT = 0) →
      (e1000e_acquire_nvm_loop c (stream_env f) n eecd t).1 = 0 ∧
      reg_reads Reg.EECD (e1000e_acquire_nvm_loop c (stream_env f) n eecd t).2.2
        = reg_reads Reg.EECD t ++ (List.range n).map (fun j => f (read_count t + j) % 2 ^ 32) := by
  induction n with
  | zero => intro eecd t _ _; simp [e1000e_acquire_nvm_loop]
  | succ n ih =>
    intro eecd t hg hall
    have hg2 := hg (Nat.succ_pos n)
    simp only [e1000e_acquire_nvm_loop, hg2, ne_eq, not_true_eq_false, if_false]
    obtain ⟨i1, i2⟩ := ih (er32 (stream_env f) Reg.EECD (udelay 5 t)).1
      (er32 (stream_env f) Reg.EECD (udelay 5 t)).2
      (by
        intro hpos
        rw [er32_stream_fst, read_count_udelay]
        simpa using hall 0 (by omega))
      (by
        intro j hj
        rw [read_count_er32, read_count_udelay]
        have := hall (j + 1) (by omega)
        rwa [show read_count t + 1 + j = read_count t + (j + 1) by omega])
    refine ⟨i1, ?_⟩
    rw [i2, reg_reads_er32, reg_reads_udelay, er32_stream_fst, read_count_er32,
      read_count_udelay, List.range_succ_eq_map n]
    simp only [List.map_cons, List.map_map, Nat.add_zero, List.append_assoc,
      List.singleton_append, List.cons.injEq, true_and, List.append_cancel_left_eq]
    apply List.map_congr_left
    intro a _
    simp only [Function.comp, Nat.succ_eq_add_one]
    rw [show read_count t + 1 + a = read_count t + (a + 1) by omega]

/-- Claim C5 fails on the code: `e1000e_acquire_nvm` reads EECD once more
than it tests it.  For every sequence `f` of values returned by the register
reads in which the values of the reads 1 to `E1000_NVM_GRANT_ATTEMPTS` (the
polls that are tested) have GNT clear and the value of the last poll, read
`E1000_NVM_GRANT_ATTEMPTS + 1`, has GNT set, the call returns
`-E1000_ERR_NVM` although a value it read while polling had GNT set. -/
theorem acquire_discards_last_poll (c : Defines) (f : Nat → Nat)
    (hclear : ∀ i, 1 ≤ i → i ≤ c.E1000_NVM_GRANT_ATTEMPTS →
      f i % 2 ^ 32 &&& c.E1000_EECD_GNT = 0)
    (hlast : f (c.E1000_NVM_GRANT_ATTEMPTS + 1) % 2 ^ 32 &&& c.E1000_EECD_GNT ≠ 0) :
    (e1000e_acquire_nvm c (stream_env f) []).1 = ERR_NVM c ∧
    reg_reads Reg.EECD (e1000e_acquire_nvm c (stream_env f) []).2
      = (List.range (c.E1000_NVM_GRANT_ATTEMPTS + 2)).map (fun i => f i % 2 ^ 32) ∧
    ∃ v, (reg_reads Reg.EECD (e1000e_acquire_nvm c (stream_env f) []).2).getLast? = some v ∧
      v &&& c.E1000_EECD_GNT ≠ 0 := by
  have hr1 : (er32 (stream_env f) Reg.EECD (ew32 Reg.EECD
      ((er32 (stream_env f) Reg.EECD []).1 ||| c.E1000_EECD_REQ)
      (er32 (stream_env f) Reg.EECD []).2)).1 = f 1 % 2 ^ 32 := rfl
  have hcnt : read_count (er32 (stream_env f) Reg.EECD (ew32 Reg.EECD
      ((er32 (stream_env f) Reg.EECD []).1 ||| c.E1000_EECD_REQ)
      (er32 (stream_env f) Reg.EECD []).2)).2 = 2 := rfl
  have hrd : reg_reads Reg.EECD (er32 (stream_env f) Reg.EECD (ew32 Reg.EECD
      ((er32 (stream_env f) Reg.EECD []).1 ||| c.E1000_EECD_REQ)
      (er32 (stream_env f) Reg.EECD []).2)).2 = [f 0 % 2 ^ 32, f 1 % 2 ^ 32] := by
    rw [reg_reads_er32, reg_reads_ew32, reg_reads_er32, hr1]
    rfl
  obtain ⟨k1, k2⟩ := acquire_loop_stream c f c.E1000_NVM_GRANT_ATTEMPTS
    (er32 (stream_env f) Reg.EECD (ew32 Reg.EECD
      ((er32 (stream_env f) Reg.EECD []).1 ||| c.E1000_EECD_REQ)
      (er32 (stream_env f) Reg.EECD []).2)).1
    (er32 (stream_env f) Reg.EECD (ew32 Reg.EECD
      ((er32 (stream_env f) Reg.EECD []).1 ||| c.E1000_EECD_REQ)
      (er32 (stream_env f) Reg.EECD []).2)).2
    (fun hpos => by rw [hr1]; exact hclear 1 (Nat.le_refl 1) hpos)
    (fun j hj => by rw [hcnt]; exact hclear (2 + j) (by omega) (by omega))
  rw [hrd, hcnt] at k2
  have hreads : reg_reads Reg.EECD (e1000e_acquire_nvm c (stream_env f) []).2
      = (List.range (c.E1000_NVM_GRANT_ATTEMPTS + 2)).map (fun i => f i % 2 ^ 32) := by
    simp only [e1000e_acquire_nvm, if_pos k1, reg_reads_dbg, reg_reads_ew32]
    rw [k2, show c.E1000_NVM_GRANT_ATTEMPTS + 2 = (c.E1000_NVM_GRANT_ATTEMPTS + 1) + 1 by omega,
      List.range_succ_eq_map (c.E1000_NVM_GRANT_ATTEMPTS + 1),
      List.range_succ_eq_map c.E1000_NVM_GRANT_ATTEMPTS]
    simp only [List.map_cons, List.map_map, List.cons_append, List.nil_append, List.cons.injEq,
      true_and]
    apply List.map_congr_left
    intro a _
    simp only [Function.comp, Nat.succ_eq_add_one]
    rw [show 2 + a = a + 1 + 1 by omega]
  refine ⟨by simp only [e1000e_acquire_nvm, if_pos k1], hreads, _, ?_, hlast⟩
  rw [hreads, List.range_succ]
  simp

/-- The failing input of claim C5 with the values of the header: 1000 polls
without GNT, GNT set in the value of the last read. -/
theorem acquire_discards_last_poll_witness :
    (e1000e_acquire_nvm e1000_defines (stream_env gnt_at_last_poll) []).1 = -1 ∧
    ∃ v, (reg_reads Reg.EECD
        (e1000e_acquire_nvm e1000_defines (stream_env gnt_at_last_poll) []).2).getLast? = some v ∧
      v &&& 0x80 ≠ 0 :=
  ⟨(acquire_discards_last_poll e1000_defines gnt_at_last_poll
      (fun i _ h2 => by
        have hi : i ≠ 1001 := by
          have : i ≤ 1000 := h2
          omega
        simp [gnt_at_last_poll, hi])
      (by decide)).1,
    (acquire_discards_last_poll e1000_defines gnt_at_last_poll
      (fun i _ h2 => by
        have hi : i ≠ 1001 := by
          have : i ≤ 1000 := h2
          omega
        simp [gnt_at_last_poll, hi])
      (by decide)).2.2⟩

theorem acquire_loop_tested (c : Defines) (env : Env) (n : Nat) :
    ∀ (eecd : Nat) (t : List Event), ∃ vs,
      reg_reads Reg.EECD (e1000e_acquire_nvm_loop c env n eecd t).2.2
        = reg_reads Reg.EECD t ++ vs ∧
      ((e1000e_acquire_nvm_loop c env n eecd t).1 ≠ 0 ↔
        ∃ v ∈ (eecd :: vs).take n, v &&& c.E1000_EECD_GNT ≠ 0) := by
  induction n with
  | zero => intro eecd t; exact ⟨[], by simp [e1000e_acquire_nvm_loop]⟩
  | succ n ih =>
    intro eecd t
    by_cases hg : eecd &&& c.E1000_EECD_GNT = 0
    · obtain ⟨vs, h1, h2⟩ := ih (er32 env Reg.EECD (udelay 5 t)).1
        (er32 env Reg.EECD (udelay 5 t)).2
      refine ⟨(er32 env Reg.EECD (udelay 5 t)).1 :: vs, ?_, ?_⟩
      · simp only [e1000e_acquire_nvm_loop, hg, ne_eq, not_true_eq_false, if_false]
        rw [h1, reg_reads_er32, reg_reads_udelay]
        simp
      · simp only [e1000e_acquire_nvm_loop, hg, ne_eq, not_true_eq_false, if_false]
        rw [ne_eq] at h2
        rw [h2, List.take_succ_cons]
        constructor
        · rintro ⟨v, hv, hv2⟩
          exact ⟨v, List.mem_cons_of_mem _ hv, hv2⟩
        · rintro ⟨v, hv, hv2⟩
          rcases List.mem_cons.1 hv with h | h
          · rw [h] at hv2
            exact absurd hg hv2
          · exact ⟨v, h, hv2⟩
    · refine ⟨[], by simp [e1000e_acquire_nvm_loop, hg], ?_⟩
      simp only [e1000e_acquire_nvm_loop, ne_eq, hg, not_false_eq_true, if_true]
      exact ⟨fun _ => ⟨eecd, by simp, hg⟩, fun _ => Nat.succ_ne_zero n⟩

/-- What `e1000e_acquire_nvm` does guarantee: it returns `E1000_SUCCESS`
exactly when one of the first `E1000_NVM_GRANT_ATTEMPTS` values read from
EECD after REQ was set has the GNT bit set. -/
theorem acquire_success_iff_tested_poll (c : Defines) (env : Env) (t : List Event)
    (herr : c.E1000_ERR_NVM ≠ 0) :
    (e1000e_acquire_nvm c env t).1 = E1000_SUCCESS ↔
      ∃ v ∈ ((new_reads Reg.EECD t (e1000e_acquire_nvm c env t).2).drop 1).take
          c.E1000_NVM_GRANT_ATTEMPTS,
        v &&& c.E1000_EECD_GNT ≠ 0 := by
  have herr2 : ERR_NVM c ≠ E1000_SUCCESS := by
    simp only [ERR_NVM, E1000_SUCCESS, ne_eq, neg_eq_zero]
    exact_mod_cast herr
  obtain ⟨vs, h1, h2⟩ := acquire_loop_tested c env c.E1000_NVM_GRANT_ATTEMPTS
    (er32 env Reg.EECD (ew32 Reg.EECD ((er32 env Reg.EECD t).1 ||| c.E1000_EECD_REQ)
      (er32 env Reg.EECD t).2)).1
    (er32 env Reg.EECD (ew32 Reg.EECD ((er32 env Reg.EECD t).1 ||| c.E1000_EECD_REQ)
      (er32 env Reg.EECD t).2)).2
  have hnr : new_reads Reg.EECD t (e1000e_acquire_nvm c env t).2
      = (er32 env Reg.EECD t).1 ::
        (er32 env Reg.EECD (ew32 Reg.EECD ((er32 env Reg.EECD t).1 ||| c.E1000_EECD_REQ)
          (er32 env Reg.EECD t).2)).1 :: vs := by
    simp only [e1000e_acquire_nvm, new_reads]
    split_ifs <;>
      simp only [reg_reads_dbg, reg_reads_ew32, h1, reg_reads_er32, List.append_assoc,
        List.drop_left, List.singleton_append, List.cons_append, List.nil_append]
  rw [hnr, List.drop_succ_cons, List.drop_zero, ← h2]
  simp only [e1000e_acquire_nvm]
  split_ifs with hz
  · exact ⟨fun h => absurd h herr2, fun h => absurd hz h⟩
  · exact ⟨fun _ => hz, fun _ => rfl⟩

/-! ## Progress of the inner loop of the SPI write -/

theorem write_page_widx (c : Defines) (env : Env) (nvm : e1000_nvm_info)
    (offset words : Nat) (data : List Nat) (fuel : Nat) :
    ∀ (widx : Nat) (t : List Event), widx < words →
      widx < (e1000e_write_nvm_spi_page c env nvm offset words data (fuel + 1) widx t).1 := by
  induction fuel with
  | zero =>
    intro widx t hw
    simp only [e1000e_write_nvm_spi_page, if_pos hw]
    split_ifs <;> simp
  | succ n ih =>
    intro widx t hw
    rw [e1000e_write_nvm_spi_page]
    simp only [if_pos hw]
    split_ifs with h1
    · simp
    · by_cases hw2 : widx + 1 < words
      · exact Nat.lt_trans (Nat.lt_succ_self _) (ih _ _ hw2)
      · simp [e1000e_write_nvm_spi_page, hw2]

theorem write_page_le (c : Defines) (env : Env) (nvm : e1000_nvm_info)
    (offset words : Nat) (data : List Nat) (fuel : Nat) :
    ∀ (widx : Nat) (t : List Event), widx ≤ words →
      (e1000e_write_nvm_spi_page c env nvm offset words data fuel widx t).1 ≤ words := by
  induction fuel with
  | zero => intro widx t h; exact h
  | succ n ih =>
    intro widx t h
    rw [e1000e_write_nvm_spi_page]
    by_cases hw : widx < words
    · simp only [if_pos hw]
      split_ifs
      · exact hw
      · exact ih _ _ hw
    · simp only [if_neg hw]
      exact h

theorem write_spi_cmd_widx (c : Defines) (env : Env) (nvm : e1000_nvm_info)
    (offset words : Nat) (data : List Nat) (s : Nat × List Event) (h : s.1 < words) :
    s.1 < (write_spi_cmd c env nvm offset words data s).1 ∧
    (write_spi_cmd c env nvm offset words data s).1 ≤ words := by
  simp only [write_spi_cmd]
  constructor
  · have h2 := write_page_widx c env nvm offset words data (words - s.1 - 1) s.1
      (e1000_shift_out_eec_bits c env nvm ((offset + s.1) * 2 % 2 ^ 16) nvm.address_bits
        (e1000_shift_out_eec_bits c env nvm
          (if nvm.address_bits = 8 ∧ offset ≥ 128 then
            c.NVM_WRITE_OPCODE_SPI ||| c.NVM_A8_OPCODE_SPI else c.NVM_WRITE_OPCODE_SPI)
          nvm.opcode_bits
          (e1000_standby_nvm c env nvm
            (e1000_shift_out_eec_bits c env nvm c.NVM_WREN_OPCODE_SPI nvm.opcode_bits
              (e1000_standby_nvm c env nvm (e1000_ready_nvm_eeprom c env nvm s.2).2))))) h
    rwa [show words - s.1 - 1 + 1 = words - s.1 by omega] at h2
  · exact write_page_le c env nvm offset words data _ _ _ (Nat.le_of_lt h)

/-- The outer loop of `e1000e_write_nvm_spi`, pass by pass: it runs the passes
in which `e1000_ready_nvm_eeprom` succeeds, and ends either at the first pass
`k` in which `e1000_ready_nvm_eeprom` fails, with its value and its trace, or
when all the words are written, with success after `msleep(10)`. -/
theorem write_loop_run (c : Defines) (env : Env) (nvm : e1000_nvm_info)
    (offset words : Nat) (data : List Nat) (fuel : Nat) :
    ∀ (s : Nat × List Event), s.1 ≤ words → words - s.1 ≤ fuel →
      ∃ k,
        (∀ j, j < k →
          (write_spi_cmd_start c env nvm offset words data j s).1 < words ∧
          (e1000_ready_nvm_eeprom c env nvm
            (write_spi_cmd_start c env nvm offset words data j s).2).1 = E1000_SUCCESS) ∧
        (((write_spi_cmd_start c env nvm offset words data k s).1 < words ∧
            (e1000_ready_nvm_eeprom c env nvm
              (write_spi_cmd_start c env nvm offset words data k s).2).1 ≠ E1000_SUCCESS ∧
            e1000e_write_nvm_spi_loop c env nvm offset words data fuel E1000_SUCCESS s.1 s.2
              = e1000_ready_nvm_eeprom c env nvm
                  (write_spi_cmd_start c env nvm offset words data k s).2) ∨
          ((write_spi_cmd_start c env nvm offset words data k s).1 = words ∧
            e1000e_write_nvm_spi_loop c env nvm offset words data fuel E1000_SUCCESS s.1 s.2
              = (E1000_SUCCESS,
                  msleep 10 (write_spi_cmd_start c env nvm offset words data k s).2))) := by
  induction fuel with
  | zero =>
    intro s h1 h2
    refine ⟨0, fun j hj => absurd hj (Nat.not_lt_zero j), Or.inr ⟨?_, rfl⟩⟩
    simp only [write_spi_cmd_start]
    omega
  | succ n ih =>
    intro s h1 h2
    by_cases hw : s.1 < words
    · by_cases hr : (e1000_ready_nvm_eeprom c env nvm s.2).1 = 0
      · have hstep : e1000e_write_nvm_spi_loop c env nvm offset words data (n + 1)
            E1000_SUCCESS s.1 s.2
            = e1000e_write_nvm_spi_loop c env nvm offset words data n E1000_SUCCESS
                (write_spi_cmd c env nvm offset words data s).1
                (write_spi_cmd c env nvm offset words data s).2 := by
          simp only [e1000e_write_nvm_spi_loop, if_pos hw, hr, ne_eq, not_true_eq_false,
            if_false, write_spi_cmd, E1000_SUCCESS]
        obtain ⟨hlt, hle⟩ := write_spi_cmd_widx c env nvm offset words data s hw
        obtain ⟨k, hk1, hk2⟩ := ih (write_spi_cmd c env nvm offset words data s) hle (by omega)
        refine ⟨k + 1, ?_, ?_⟩
        · intro j hj
          cases j with
          | zero => exact ⟨hw, hr⟩
          | succ j => exact hk1 j (by omega)
        · rw [hstep]
          exact hk2
      · refine ⟨0, fun j hj => absurd hj (Nat.not_lt_zero j), Or.inl ⟨hw, hr, ?_⟩⟩
        simp only [e1000e_write_nvm_spi_loop, if_pos hw, ne_eq, hr, not_false_eq_true, if_true,
          write_spi_cmd_start]
    · refine ⟨0, fun j hj => absurd hj (Nat.not_lt_zero j), Or.inr ⟨?_, ?_⟩⟩
      · simp only [write_spi_cmd_start]
        omega
      · simp only [e1000e_write_nvm_spi_loop, if_neg hw, write_spi_cmd_start]

/-! ## The bit-banged functions call neither `ops.acquire` nor `ops.release` -/

theorem ops_calls_raise (c : Defines) (nvm : e1000_nvm_info) (eecd : Nat) (t : List Event) :
    ops_calls (e1000_raise_eec_clk c nvm eecd t).2 = ops_calls t := by
  simp [e1000_raise_eec_clk, ops_calls_ew32, ops_calls_flush, ops_calls_udelay]

theorem ops_calls_lower (c : Defines) (nvm : e1000_nvm_info) (eecd : Nat) (t : List Event) :
    ops_calls (e1000_lower_eec_clk c nvm eecd t).2 = ops_calls t := by
  simp [e1000_lower_eec_clk, ops_calls_ew32, ops_calls_flush, ops_calls_udelay]

theorem ops_calls_shift_out_loop (c : Defines) (nvm : e1000_nvm_info) (data fuel : Nat) :
    ∀ (mask eecd : Nat) (t : List Event),
      ops_calls (e1000_shift_out_eec_bits_loop c nvm data fuel mask eecd t).2 = ops_calls t := by
  induction fuel with
  | zero => intro mask eecd t; rfl
  | succ n ih =>
    intro mask eecd t
    rw [e1000_shift_out_eec_bits_loop]
    split_ifs <;>
      simp [ih, ops_calls_lower, ops_calls_raise, ops_calls_ew32, ops_calls_flush,
        ops_calls_udelay]

theorem ops_calls_shift_out (c : Defines) (env : Env) (nvm : e1000_nvm_info)
    (data count : Nat) (t : List Event) :
    ops_calls (e1000_shift_out_eec_bits c env nvm data count t) = ops_calls t := by
  simp [e1000_shift_out_eec_bits, ops_calls_ew32, ops_calls_shift_out_loop, ops_calls_er32]

theorem ops_calls_shift_in_loop (c : Defines) (env : Env) (nvm : e1000_nvm_info) (n : Nat) :
    ∀ (data eecd : Nat) (t : List Event),
      ops_calls (e1000_shift_in_eec_bits_loop c env nvm n data eecd t).2 = ops_calls t := by
  induction n with
  | zero => intro data eecd t; rfl
  | succ n ih =>
    intro data eecd t
    rw [e1000_shift_in_eec_bits_loop]
    simp [ih, ops_calls_lower, ops_calls_raise, ops_calls_er32]

theorem ops_calls_shift_in (c : Defines) (env : Env) (nvm : e1000_nvm_info)
    (count : Nat) (t : List Event) :
    ops_calls (e1000_shift_in_eec_bits c env nvm count t).2 = ops_calls t := by
  simp [e1000_shift_in_eec_bits, ops_calls_shift_in_loop, ops_calls_er32]

theorem ops_calls_standby (c : Defines) (env : Env) (nvm : e1000_nvm_info) (t : List Event) :
    ops_calls (e1000_standby_nvm c env nvm t) = ops_calls t := by
  unfold e1000_standby_nvm
  split_ifs <;> simp [ops_calls_ew32, ops_calls_flush, ops_calls_udelay, ops_calls_er32]

theorem ops_calls_ready_loop (c : Defines) (env : Env) (nvm : e1000_nvm_info) (n : Nat) :
    ∀ (t : List Event),
      ops_calls (e1000_ready_nvm_eeprom_loop c env nvm n t).2 = ops_calls t := by
  induction n with
  | zero => intro t; rfl
  | succ n ih =>
    intro t
    rw [e1000_ready_nvm_eeprom_loop]
    split_ifs <;>
      simp [ih, ops_calls_standby, ops_calls_udelay, ops_calls_shift_in, ops_calls_shift_out]

theorem ops_calls_ready (c : Defines) (env : Env) (nvm : e1000_nvm_info) (t : List Event) :
    ops_calls (e1000_ready_nvm_eeprom c env nvm t).2 = ops_calls t := by
  simp only [e1000_ready_nvm_eeprom]
  split_ifs <;>
    simp [ops_calls_ready_loop, ops_calls_udelay, ops_calls_ew32, ops_calls_er32, ops_calls_dbg]

theorem ops_calls_page (c : Defines) (env : Env) (nvm : e1000_nvm_info)
    (offset words : Nat) (data : List Nat) (fuel : Nat) :
    ∀ (widx : Nat) (t : List Event),
      ops_calls (e1000e_write_nvm_spi_page c env nvm offset words data fuel widx t).2
        = ops_calls t := by
  induction fuel with
  | zero => intro widx t; rfl
  | succ n ih =>
    intro widx t
    simp only [e1000e_write_nvm_spi_page]
    split_ifs <;> simp [ih, ops_calls_standby, ops_calls_shift_out]

theorem ops_calls_write_loop (c : Defines) (env : Env) (nvm : e1000_nvm_info)
    (offset words : Nat) (data : List Nat) (fuel : Nat) :
    ∀ (ret_val : Int) (widx : Nat) (t : List Event),
      ops_calls (e1000e_write_nvm_spi_loop c env nvm offset words data fuel ret_val widx t).2
        = ops_calls t := by
  induction fuel with
  | zero => intro ret_val widx t; simp [e1000e_write_nvm_spi_loop, ops_calls_msleep]
  | succ n ih =>
    intro ret_val widx t
    simp only [e1000e_write_nvm_spi_loop]
    split_ifs <;>
      simp [ih, ops_calls_page, ops_calls_standby, ops_calls_shift_out, ops_calls_ready,
        ops_calls_msleep]

/-! ## Release discipline of the SPI write -/

theorem ready_result (c : Defines) (env : Env) (nvm : e1000_nvm_info) (t : List Event) :
    (e1000_ready_nvm_eeprom c env nvm t).1 = E1000_SUCCESS ∨
    ((e1000_ready_nvm_eeprom c env nvm t).1 = ERR_NVM c ∧
      ∃ x, (e1000_ready_nvm_eeprom c env nvm t).2
        = Event.e_dbg DbgMsg.spi_status_error :: x) := by
  simp only [e1000_ready_nvm_eeprom]
  split_ifs <;> simp [e_dbg]

theorem write_loop_result (c : Defines) (env : Env) (nvm : e1000_nvm_info)
    (offset words : Nat) (data : List Nat) (fuel : Nat) :
    ∀ (widx : Nat) (t : List Event),
      ((e1000e_write_nvm_spi_loop c env nvm offset words data fuel E1000_SUCCESS widx t).1
          = E1000_SUCCESS ∧
        ∃ x, (e1000e_write_nvm_spi_loop c env nvm offset words data fuel E1000_SUCCESS widx t).2
          = Event.msleep 10 :: x) ∨
      ((e1000e_write_nvm_spi_loop c env nvm offset words data fuel E1000_SUCCESS widx t).1
          = ERR_NVM c ∧
        ∃ x, (e1000e_write_nvm_spi_loop c env nvm offset words data fuel E1000_SUCCESS widx t).2
          = Event.e_dbg DbgMsg.spi_status_error :: x) := by
  induction fuel with
  | zero => intro widx t; left; simp [e1000e_write_nvm_spi_loop, msleep]
  | succ n ih =>
    intro widx t
    rw [e1000e_write_nvm_spi_loop]
    by_cases hw : widx < words
    · simp only [if_pos hw]
      by_cases hr : (e1000_ready_nvm_eeprom c env nvm t).1 = 0
      · simp only [hr, ne_eq, not_true_eq_false, if_false]
        exact ih _ _
      · simp only [ne_eq, hr, not_false_eq_true, if_true]
        rcases ready_result c env nvm t with h | h
        · exact absurd h hr
        · exact Or.inr h
    · simp only [if_neg hw]
      left
      simp [msleep]

/-- Claim C7: `e1000e_write_nvm_spi` calls `ops.release` exactly once, as the
last thing it does, when the bounds check passes and `ops.acquire` returns
success (on a descriptor with a nonzero page size and 1 to 31 opcode and
address bits, for which the C code is defined): then the calls of the
operations are one `ops.acquire` followed by one `ops.release`, and the call
runs the passes of its loop up to a pass `k` such that
`e1000_ready_nvm_eeprom` succeeded in every pass before `k`, and either
`e1000_ready_nvm_eeprom` fails in pass `k`, the result is the value it
returned, `-E1000_ERR_NVM`, and `ops.release` follows it at once, or all the
words are written at pass `k`, the result is `E1000_SUCCESS` and `ops.release`
follows `msleep(10)`.  When the bounds check fails the result is
`-E1000_ERR_NVM` and no operation is called; when `ops.acquire` fails the
result is its value and `ops.release` is not called. -/
theorem write_spi_release_discipline (c : Defines) (env : Env) (nvm : e1000_nvm_info)
    (offset words : Nat) (data : List Nat) (t : List Event) :
    (nvm_out_of_bounds nvm offset words = true →
      (e1000e_write_nvm_spi c env nvm offset words data t).1 = ERR_NVM c ∧
      ops_calls (e1000e_write_nvm_spi c env nvm offset words data t).2 = ops_calls t) ∧
    (nvm_out_of_bounds nvm offset words = false → env.acquire t ≠ 0 →
      (e1000e_write_nvm_spi c env nvm offset words data t).1 = env.acquire t ∧
      ops_calls (e1000e_write_nvm_spi c env nvm offset words data t).2
        = ops_calls t ++ [Event.ops_acquire (env.acquire t)]) ∧
    (nvm_out_of_bounds nvm offset words = false → env.acquire t = 0 →
      0 < nvm.page_size → 1 ≤ nvm.opcode_bits → nvm.opcode_bits ≤ 31 →
      1 ≤ nvm.address_bits → nvm.address_bits ≤ 31 →
      ops_calls (e1000e_write_nvm_spi c env nvm offset words data t).2
        = ops_calls t ++ [Event.ops_acquire 0, Event.ops_release] ∧
      (((e1000e_write_nvm_spi c env nvm offset words data t).1 = E1000_SUCCESS ∧
          ∃ x, (e1000e_write_nvm_spi c env nvm offset words data t).2
            = Event.ops_release :: Event.msleep 10 :: x) ∨
        ((e1000e_write_nvm_spi c env nvm offset words data t).1 = ERR_NVM c ∧
          ∃ x, (e1000e_write_nvm_spi c env nvm offset words data t).2
            = Event.ops_release :: Event.e_dbg DbgMsg.spi_status_error :: x)) ∧
      ∃ k,
        (∀ j, j < k →
          (write_spi_cmd_start c env nvm offset words data j (0, (ops_acquire env t).2)).1
            < words ∧
          (e1000_ready_nvm_eeprom c env nvm
            (write_spi_cmd_start c env nvm offset words data j
              (0, (ops_acquire env t).2)).2).1 = E1000_SUCCESS) ∧
        (((write_spi_cmd_start c env nvm offset words data k (0, (ops_acquire env t).2)).1
              < words ∧
            (e1000_ready_nvm_eeprom c env nvm
              (write_spi_cmd_start c env nvm offset words data k
                (0, (ops_acquire env t).2)).2).1 ≠ E1000_SUCCESS ∧
            (e1000_ready_nvm_eeprom c env nvm
              (write_spi_cmd_start c env nvm offset words data k
                (0, (ops_acquire env t).2)).2).1 = ERR_NVM c ∧
            e1000e_write_nvm_spi c env nvm offset words data t
              = ((e1000_ready_nvm_eeprom c env nvm
                    (write_spi_cmd_start c env nvm offset words data k
                      (0, (ops_acquire env t).2)).2).1,
                  ops_release (e1000_ready_nvm_eeprom c env nvm
                    (write_spi_cmd_start c env nvm offset words data k
                      (0, (ops_acquire env t).2)).2).2)) ∨
          ((write_spi_cmd_start c env nvm offset words data k (0, (ops_acquire env t).2)).1
              = words ∧
            e1000e_write_nvm_spi c env nvm offset words data t
              = (E1000_SUCCESS,
                  ops_release (msleep 10
                    (write_spi_cmd_start c env nvm offset words data k
                      (0, (ops_acquire env t).2)).2))))) := by
  refine ⟨?_, ?_, ?_⟩
  · intro hb
    simp [e1000e_write_nvm_spi, hb, ops_calls_dbg]
  · intro hb ha
    have h := ops_calls_acquire env t
    simp only [ops_acquire] at h
    simp [e1000e_write_nvm_spi, hb, ops_acquire, ha, h]
  · intro hb ha _ _ _ _ _
    have h := ops_calls_acquire env t
    simp only [ops_acquire, ha] at h
    have hacq : (ops_acquire env t).2 = Event.ops_acquire 0 :: t := by
      simp only [ops_acquire, ha]
    have hl := write_loop_result c env nvm offset words data words 0
      (Event.ops_acquire 0 :: t)
    have hfin : e1000e_write_nvm_spi c env nvm offset words data t
        = ((e1000e_write_nvm_spi_loop c env nvm offset words data words E1000_SUCCESS 0
              (Event.ops_acquire 0 :: t)).1,
            ops_release (e1000e_write_nvm_spi_loop c env nvm offset words data words
              E1000_SUCCESS 0 (Event.ops_acquire 0 :: t)).2) := by
      simp [e1000e_write_nvm_spi, hb, ops_acquire, ha, E1000_SUCCESS]
    obtain ⟨k, hk1, hk2⟩ := write_loop_run c env nvm offset words data words
      (0, Event.ops_acquire 0 :: t) (Nat.zero_le _) (by simp)
    rw [hacq, hfin]
    refine ⟨?_, ?_, k, hk1, ?_⟩
    · rw [ops_calls_release, ops_calls_write_loop, h]
      simp
    · rcases hl with ⟨h1, x, hx⟩ | ⟨h1, x, hx⟩
      · exact Or.inl ⟨h1, x, by simp only [ops_release, hx]⟩
      · exact Or.inr ⟨h1, x, by simp only [ops_release, hx]⟩
    · rcases hk2 with ⟨h1, h2, h3⟩ | ⟨h1, h3⟩
      · refine Or.inl ⟨h1, h2, ?_, by rw [h3]⟩
        rcases ready_result c env nvm (write_spi_cmd_start c env nvm offset words data k
          (0, Event.ops_acquire 0 :: t)).2 with h4 | h4
        · exact absurd h4 h2
        · exact h4.1
      · exact Or.inr ⟨h1, by rw [h3]⟩

set_option maxRecDepth 100000 in
/-- Claim C7 at a concrete input: one word written at offset 10 of an idle
EEPROM. -/
theorem write_spi_release_discipline_witness :
    ops_calls (e1000e_write_nvm_spi e1000_defines idle_env nvm_spi_256 10 1 [0x1234] []).2
        = [Event.ops_acquire 0, Event.ops_release] ∧
    (e1000e_write_nvm_spi e1000_defines idle_env nvm_spi_256 10 1 [0x1234] []).1 = 0 :=
  ⟨((write_spi_release_discipline e1000_defines idle_env nvm_spi_256 10 1 [0x1234] []).2.2
      (by decide) rfl (by decide) (by decide) (by decide) (by decide) (by decide)).1,
    by decide⟩

set_option maxRecDepth 100000 in
/-- The failure path of claim C7 at a concrete input: on an EEPROM that stays
busy `e1000_ready_nvm_eeprom` fails in the first pass; the call returns its
`-E1000_ERR_NVM`, and `ops.release` is called once, right after the
diagnostic of the failure. -/
theorem write_spi_ready_failure_releases :
    (e1000e_write_nvm_spi e1000_defines_1_retry busy_env nvm_spi_256 10 1 [0x1234] []).1 = -1 ∧
    (e1000e_write_nvm_spi e1000_defines_1_retry busy_env nvm_spi_256 10 1 [0x1234] []).2.take 2
      = [Event.ops_release, Event.e_dbg DbgMsg.spi_status_error] ∧
    ops_calls (e1000e_write_nvm_spi e1000_defines_1_retry busy_env nvm_spi_256 10 1 [0x1234] []).2
      = [Event.ops_acquire 0, Event.ops_release] := by
  decide

/-! ## The iteration bounds of the loops are never reached -/

/-- More than 32 iterations never change the result of the loop of
`e1000_shift_out_eec_bits`: a nonzero `mask` below `2 ^ fuel` is shifted to
zero within `fuel` iterations. -/
theorem shift_out_loop_fuel (c : Defines) (nvm : e1000_nvm_info) (data : Nat) (fuel : Nat) :
    ∀ (d mask eecd : Nat) (t : List Event), mask < 2 ^ fuel → 1 ≤ fuel →
      e1000_shift_out_eec_bits_loop c nvm data (fuel + d) mask eecd t
        = e1000_shift_out_eec_bits_loop c nvm data fuel mask eecd t := by
  induction fuel with
  | zero => intro d mask eecd t _ h; omega
  | succ n ih =>
    intro d mask eecd t hm _
    rw [show n + 1 + d = (n + d) + 1 by omega]
    simp only [e1000_shift_out_eec_bits_loop]
    by_cases h0 : mask >>> 1 = 0
    · simp [h0]
    · have hlt : mask >>> 1 < 2 ^ n := by
        rw [Nat.shiftRight_eq_div_pow, pow_one]
        rw [pow_succ] at hm
        omega
      have hn : 1 ≤ n := by
        rcases Nat.eq_zero_or_pos n with h | h
        · subst h
          simp at hlt
          exact absurd hlt h0
        · exact h
      simp only [ne_eq, h0, not_false_eq_true, if_true]
      exact ih d _ _ _ hlt hn

/-- With `words - widx` iterations allowed, the inner loop of
`e1000e_write_nvm_spi` ends by its own condition: more iterations change
nothing. -/
theorem write_page_fuel (c : Defines) (env : Env) (nvm : e1000_nvm_info)
    (offset words : Nat) (data : List Nat) (fuel : Nat) :
    ∀ (d widx : Nat) (t : List Event), words - widx ≤ fuel →
      e1000e_write_nvm_spi_page c env nvm offset words data (fuel + d) widx t
        = e1000e_write_nvm_spi_page c env nvm offset words data fuel widx t := by
  induction fuel with
  | zero =>
    intro d widx t h
    have hw : ¬ widx < words := by omega
    cases d with
    | zero => rfl
    | succ d => simp [e1000e_write_nvm_spi_page, hw]
  | succ n ih =>
    intro d widx t h
    rw [show n + 1 + d = (n + d) + 1 by omega]
    simp only [e1000e_write_nvm_spi_page]
    split_ifs
    · rfl
    · exact ih d _ _ (by omega)
    · rfl

/-- With `words - widx` iterations allowed, the outer loop of
`e1000e_write_nvm_spi` ends by its own condition or by a failure of
`e1000_ready_nvm_eeprom`: more iterations change nothing. -/
theorem write_loop_fuel (c : Defines) (env : Env) (nvm : e1000_nvm_info)
    (offset words : Nat) (data : List Nat) (fuel : Nat) :
    ∀ (d : Nat) (ret_val : Int) (widx : Nat) (t : List Event), words - widx ≤ fuel →
      e1000e_write_nvm_spi_loop c env nvm offset words data (fuel + d) ret_val widx t
        = e1000e_write_nvm_spi_loop c env nvm offset words data fuel ret_val widx t := by
  induction fuel with
  | zero =>
    intro d ret_val widx t h
    have hw : ¬ widx < words := by omega
    cases d with
    | zero => rfl
    | succ d => simp [e1000e_write_nvm_spi_loop, hw]
  | succ n ih =>
    intro d ret_val widx t h
    rw [show n + 1 + d = (n + d) + 1 by omega]
    simp only [e1000e_write_nvm_spi_loop]
    by_cases hw : widx < words
    · have hp : ∀ t2, widx <
          (e1000e_write_nvm_spi_page c env nvm offset words data (words - widx) widx t2).1 := by
        intro t2
        have h2 := write_page_widx c env nvm offset words data (words - widx - 1) widx t2 hw
        rwa [show words - widx - 1 + 1 = words - widx by omega] at h2
      simp only [if_pos hw]
      by_cases hr : (e1000_ready_nvm_eeprom c env nvm t).1 = 0
      · simp only [hr, ne_eq, not_true_eq_false, if_false]
        apply ih
        have h3 := hp (e1000_shift_out_eec_bits c env nvm ((offset + widx) * 2 % 2 ^ 16)
          nvm.address_bits
          (e1000_shift_out_eec_bits c env nvm
            (if nvm.address_bits = 8 ∧ offset ≥ 128 then
              c.NVM_WRITE_OPCODE_SPI ||| c.NVM_A8_OPCODE_SPI else c.NVM_WRITE_OPCODE_SPI)
            nvm.opcode_bits
            (e1000_standby_nvm c env nvm
              (e1000_shift_out_eec_bits c env nvm c.NVM_WREN_OPCODE_SPI nvm.opcode_bits
                (e1000_standby_nvm c env nvm (e1000_ready_nvm_eeprom c env nvm t).2)))))
        omega
      · simp only [ne_eq, hr, not_false_eq_true, if_true]
    · simp only [if_neg hw]

/-! ## Register-assisted read -/

theorem poll_loop_result (c : Defines) (env : Env) (ee_reg n : Nat) :
    ∀ t, (e1000e_poll_eerd_eewr_done_loop c env ee_reg n t).1 = E1000_SUCCESS ∨
      (e1000e_poll_eerd_eewr_done_loop c env ee_reg n t).1 = ERR_NVM c := by
  induction n with
  | zero => intro t; right; rfl
  | succ n ih =>
    intro t
    rw [e1000e_poll_eerd_eewr_done_loop]
    split_ifs
    · left; rfl
    · exact ih _
    · left; rfl
    · exact ih _

theorem read_loop_ok (c : Defines) (env : Env) (offset : Nat) (t : List Event)
    (data : List Nat) (n : Nat) :
    ∀ i, (∀ j, i ≤ j → j < i + n → (eerd_poll c env offset t j).1 = E1000_SUCCESS) →
      e1000e_read_nvm_eerd_loop c env offset n i (eerd_data c env offset t data i)
          (eerd_word_start c env offset t i)
        = (E1000_SUCCESS, eerd_data c env offset t data (i + n),
            eerd_word_start c env offset t (i + n)) := by
  induction n with
  | zero => intro i _; rfl
  | succ n ih =>
    intro i h
    have hi := h i (Nat.le_refl _) (by omega)
    rw [e1000e_read_nvm_eerd_loop]
    simp only [eerd_poll] at hi
    simp only [hi, E1000_SUCCESS, ne_eq, not_true_eq_false, if_false]
    have := ih (i + 1) (fun j h1 h2 => h j (by omega) (by omega))
    simp only [eerd_data, eerd_word_start, eerd_value, eerd_poll, E1000_SUCCESS] at this
    rw [this, show i + 1 + n = i + (n + 1) by omega]

theorem read_loop_timeout (c : Defines) (env : Env) (offset : Nat) (t : List Event)
    (data : List Nat) (n : Nat) :
    ∀ i k, i ≤ k → k < i + n →
      (∀ j, i ≤ j → j < k → (eerd_poll c env offset t j).1 = E1000_SUCCESS) →
      (eerd_poll c env offset t k).1 ≠ E1000_SUCCESS →
      e1000e_read_nvm_eerd_loop c env offset n i (eerd_data c env offset t data i)
          (eerd_word_start c env offset t i)
        = ((eerd_poll c env offset t k).1, eerd_data c env offset t data k,
            (eerd_poll c env offset t k).2) := by
  induction n with
  | zero => intro i k h1 h2; omega
  | succ n ih =>
    intro i k h1 h2 hok hfail
    rw [e1000e_read_nvm_eerd_loop]
    by_cases hik : i = k
    · subst hik
      simp only [eerd_poll, E1000_SUCCESS] at hfail
      simp only [ne_eq, hfail, not_false_eq_true, if_true, eerd_poll]
    · have hi := hok i (Nat.le_refl _) (by omega)
      simp only [eerd_poll] at hi
      simp only [hi, E1000_SUCCESS, ne_eq, not_true_eq_false, if_false]
      have := ih (i + 1) k (by omega) (by omega) (fun j h1 h2 => hok j (by omega) h2) hfail
      simp only [eerd_data, eerd_word_start, eerd_value, eerd_poll, E1000_SUCCESS] at this
      rw [this]
      simp only [eerd_poll]

theorem eerd_data_getElem? (c : Defines) (env : Env) (offset : Nat) (t : List Event)
    (data : List Nat) (m : Nat) :
    (eerd_data c env offset t data m).length = data.length ∧
    ∀ j, (eerd_data c env offset t data m)[j]?
      = if j < m ∧ j < data.length then
          some ((eerd_value c env offset t j >>> c.E1000_NVM_RW_REG_DATA) % 2 ^ 16)
        else data[j]? := by
  induction m with
  | zero => simp [eerd_data]
  | succ m ih =>
    obtain ⟨ih1, ih2⟩ := ih
    refine ⟨by simp [eerd_data, ih1], ?_⟩
    intro j
    simp only [eerd_data, List.getElem?_set, ih1, ih2]
    by_cases hjm : m = j
    · subst hjm
      by_cases hl : m < data.length
      · simp [hl]
      · simp [hl]
        omega
    · simp only [hjm, if_false]
      by_cases hl : j < m
      · simp [hl, show j < m + 1 by omega]
      · simp [hl, show ¬ j < m + 1 by omega]


theorem reg_writes_poll_loop (c : Defines) (env : Env) (r : Reg) (ee_reg n : Nat) :
    ∀ t, reg_writes r (e1000e_poll_eerd_eewr_done_loop c env ee_reg n t).2 = reg_writes r t := by
  induction n with
  | zero => intro t; rfl
  | succ n ih =>
    intro t
    rw [e1000e_poll_eerd_eewr_done_loop]
    split_ifs <;> simp [ih, reg_writes_er32, reg_writes_udelay]

theorem reg_writes_word_start (c : Defines) (env : Env) (offset : Nat) (t : List Event) (m : Nat) :
    reg_writes Reg.EERD (eerd_word_start c env offset t m)
      = reg_writes Reg.EERD t ++ (List.range m).map (eerd_trigger c offset) := by
  induction m with
  | zero => simp [eerd_word_start]
  | succ m ih =>
    simp only [eerd_word_start, reg_writes_er32, e1000e_poll_eerd_eewr_done,
      reg_writes_poll_loop, reg_writes_ew32, ih,
      List.range_succ, List.map_append, List.map_cons, List.map_nil, List.append_assoc]

/-- Claim C8: for an in-bounds call of `e1000e_read_nvm_eerd` on a buffer of
at least `words` entries: if the completion polls of the words before `k`
succeed and the poll of word `k < words` does not, the call returns
`-E1000_ERR_NVM`, `data[i]` for `i < k` holds the 16-bit data field of the
EERD value read after the completion of word `i`, and `data[i]` for `i >= k`
is unchanged; if every poll succeeds the call returns `E1000_SUCCESS`, all
`words` entries are so filled, the rest of the buffer is unchanged, and the
values written to EERD are, in order, the triggers
`((offset+i) << E1000_NVM_RW_ADDR_SHIFT) + E1000_NVM_RW_REG_START` of the
words `i < words`. -/
theorem read_eerd_partial_fill (c : Defines) (env : Env) (nvm : e1000_nvm_info)
    (offset words : Nat) (data : List Nat) (t : List Event)
    (hb : nvm_out_of_bounds nvm offset words = false) (hlen : words ≤ data.length) :
    (∀ k, k < words →
      (∀ i, i < k → (eerd_poll c env offset t i).1 = E1000_SUCCESS) →
      (eerd_poll c env offset t k).1 ≠ E1000_SUCCESS →
      (e1000e_read_nvm_eerd c env nvm offset words data t).1 = ERR_NVM c ∧
      (∀ i, i < k → (e1000e_read_nvm_eerd c env nvm offset words data t).2.1[i]?
        = some ((eerd_value c env offset t i >>> c.E1000_NVM_RW_REG_DATA) % 2 ^ 16)) ∧
      (∀ i, k ≤ i → (e1000e_read_nvm_eerd c env nvm offset words data t).2.1[i]? = data[i]?)) ∧
    ((∀ i, i < words → (eerd_poll c env offset t i).1 = E1000_SUCCESS) →
      (e1000e_read_nvm_eerd c env nvm offset words data t).1 = E1000_SUCCESS ∧
      (∀ i, i < words → (e1000e_read_nvm_eerd c env nvm offset words data t).2.1[i]?
        = some ((eerd_value c env offset t i >>> c.E1000_NVM_RW_REG_DATA) % 2 ^ 16)) ∧
      (∀ i, words ≤ i → (e1000e_read_nvm_eerd c env nvm offset words data t).2.1[i]? = data[i]?) ∧
      reg_writes Reg.EERD (e1000e_read_nvm_eerd c env nvm offset words data t).2.2
        = reg_writes Reg.EERD t ++ (List.range words).map (eerd_trigger c offset)) := by
  constructor
  · intro k hk hok hfail
    have h := read_loop_timeout c env offset t data words 0 k (Nat.zero_le _) (by omega)
      (fun j _ hj => hok j hj) hfail
    simp only [eerd_data, eerd_word_start] at h
    simp only [e1000e_read_nvm_eerd, hb, Bool.false_eq_true, if_false, h]
    refine ⟨?_, ?_, ?_⟩
    · rcases poll_loop_result c env c.E1000_NVM_POLL_READ 100000
        (ew32 Reg.EERD (eerd_trigger c offset k) (eerd_word_start c env offset t k)) with h1 | h1
      · exact absurd h1 hfail
      · exact h1
    · intro i hi
      rw [(eerd_data_getElem? c env offset t data k).2 i, if_pos ⟨hi, by omega⟩]
    · intro i hi
      rw [(eerd_data_getElem? c env offset t data k).2 i, if_neg (by omega)]
  · intro hok
    have h := read_loop_ok c env offset t data words 0 (fun j _ hj => hok j (by omega))
    simp only [eerd_data, eerd_word_start, Nat.zero_add] at h
    simp only [e1000e_read_nvm_eerd, hb, Bool.false_eq_true, if_false, h]
    refine ⟨trivial, ?_, ?_, reg_writes_word_start c env offset t words⟩
    · intro i hi
      rw [(eerd_data_getElem? c env offset t data words).2 i, if_pos ⟨hi, by omega⟩]
    · intro i hi
      rw [(eerd_data_getElem? c env offset t data words).2 i, if_neg (by omega)]


/-- Claim C8 at a concrete input: two words read at offset 3 from a device
that completes every read with the data field 0x1234. -/
theorem read_eerd_partial_fill_witness :
    (e1000e_read_nvm_eerd e1000_defines eerd_done_env nvm_spi_256 3 2 [0, 0, 7] []).1
        = E1000_SUCCESS ∧
    (e1000e_read_nvm_eerd e1000_defines eerd_done_env nvm_spi_256 3 2 [0, 0, 7] []).2.1
        = [0x1234, 0x1234, 7] ∧
    reg_writes Reg.EERD
        (e1000e_read_nvm_eerd e1000_defines eerd_done_env nvm_spi_256 3 2 [0, 0, 7] []).2.2
        = [13, 17] :=
  ⟨((read_eerd_partial_fill e1000_defines eerd_done_env nvm_spi_256 3 2 [0, 0, 7] []
      (by decide) (by decide)).2 (by decide)).1, by decide,
    ((read_eerd_partial_fill e1000_defines eerd_done_env nvm_spi_256 3 2 [0, 0, 7] []
      (by decide) (by decide)).2 (by decide)).2.2.2⟩

/-- The register polled by `e1000e_poll_eerd_eewr_done(hw, ee_reg)`. -/
theorem poll_register (c : Defines) (env : Env) (ee_reg : Nat) (t : List Event) :
    (if ee_reg = c.E1000_NVM_POLL_READ then er32 env Reg.EERD t else er32 env Reg.EEWR t)
      = er32 env (if ee_reg = c.E1000_NVM_POLL_READ then Reg.EERD else Reg.EEWR) t := by
  split_ifs <;> rfl

theorem poll_loop_done (c : Defines) (env : Env) (ee_reg : Nat)
    (herr : c.E1000_ERR_NVM ≠ 0) (n : Nat) :
    ∀ t, ∃ vs, vs.length ≤ n ∧
      reg_reads (if ee_reg = c.E1000_NVM_POLL_READ then Reg.EERD else Reg.EEWR)
          (e1000e_poll_eerd_eewr_done_loop c env ee_reg n t).2
        = reg_reads (if ee_reg = c.E1000_NVM_POLL_READ then Reg.EERD else Reg.EEWR) t ++ vs ∧
      ((e1000e_poll_eerd_eewr_done_loop c env ee_reg n t).1 = E1000_SUCCESS ↔
        ∃ v ∈ vs, v &&& c.E1000_NVM_RW_REG_DONE ≠ 0) := by
  have herr2 : ERR_NVM c ≠ E1000_SUCCESS := by
    simp only [ERR_NVM, E1000_SUCCESS, ne_eq, neg_eq_zero]
    exact_mod_cast herr
  induction n with
  | zero =>
    intro t
    exact ⟨[], Nat.le_refl _, by simp [e1000e_poll_eerd_eewr_done_loop],
      by simp [e1000e_poll_eerd_eewr_done_loop, herr2]⟩
  | succ n ih =>
    intro t
    rw [e1000e_poll_eerd_eewr_done_loop]
    simp only [poll_register]
    by_cases hd : (er32 env (if ee_reg = c.E1000_NVM_POLL_READ then Reg.EERD else Reg.EEWR) t).1
        &&& c.E1000_NVM_RW_REG_DONE ≠ 0
    · simp only [if_pos hd]
      exact ⟨[(er32 env (if ee_reg = c.E1000_NVM_POLL_READ then Reg.EERD else Reg.EEWR) t).1],
        by simp, reg_reads_er32 _ _ _, by simpa using hd⟩
    · simp only [if_neg hd]
      obtain ⟨vs, h0, h1, h2⟩ := ih (udelay 5
        (er32 env (if ee_reg = c.E1000_NVM_POLL_READ then Reg.EERD else Reg.EEWR) t).2)
      refine ⟨(er32 env (if ee_reg = c.E1000_NVM_POLL_READ then Reg.EERD else Reg.EEWR) t).1 :: vs,
        by simp; omega, ?_, ?_⟩
      · rw [h1, reg_reads_udelay, reg_reads_er32]
        simp
      · rw [h2]
        constructor
        · rintro ⟨v, hv, hv2⟩
          exact ⟨v, List.mem_cons_of_mem _ hv, hv2⟩
        · rintro ⟨v, hv, hv2⟩
          rcases List.mem_cons.1 hv with h | h
          · rw [h] at hv2
            exact absurd hv2 hd
          · exact ⟨v, h, hv2⟩

/-- The completion poll succeeds exactly when one of the at most 100000 values
it reads from the polled register has the DONE bit set. -/
theorem poll_success_iff_done (c : Defines) (env : Env) (ee_reg : Nat) (t : List Event)
    (herr : c.E1000_ERR_NVM ≠ 0) :
    (new_reads (if ee_reg = c.E1000_NVM_POLL_READ then Reg.EERD else Reg.EEWR) t
      (e1000e_poll_eerd_eewr_done c env ee_reg t).2).length ≤ 100000 ∧
    ((e1000e_poll_eerd_eewr_done c env ee_reg t).1 = E1000_SUCCESS ↔
      ∃ v ∈ new_reads (if ee_reg = c.E1000_NVM_POLL_READ then Reg.EERD else Reg.EEWR) t
        (e1000e_poll_eerd_eewr_done c env ee_reg t).2, v &&& c.E1000_NVM_RW_REG_DONE ≠ 0) := by
  obtain ⟨vs, h0, h1, h2⟩ := poll_loop_done c env ee_reg herr 100000 t
  simp only [new_reads, e1000e_poll_eerd_eewr_done, h1, List.drop_left]
  exact ⟨h0, h2⟩

/-! ## Bit-level shifter -/

set_option maxRecDepth 100000 in
/-- Claim C10 fails on the code: a write of 2 words at offset 127 to an SPI
EEPROM with 8 address bits and pages of 32 bytes succeeds and clocks out two
WRITE commands (each after a read of the status register, 0x05 and the status
byte, and a WREN, 0x06).  The first starts at word 127: opcode 0x02, address
byte 0xFE, then the word 0x1234 low byte first.  The second starts at word
128, byte address 256, in the upper half: its opcode is again 0x02, without
the A8 bit 0x08, and its address byte is 0x00, so that it addresses byte 0
and not byte 256. -/
theorem write_spi_a8_from_start_offset_only :
    (e1000e_write_nvm_spi e1000_defines idle_env nvm_spi_256 127 2 [0x1234, 0x5678] []).1
      = E1000_SUCCESS ∧
    spi_bytes e1000_defines
        (e1000e_write_nvm_spi e1000_defines idle_env nvm_spi_256 127 2 [0x1234, 0x5678] []).2
      = [0x05, 0x00, 0x06, 0x02, 0xFE, 0x34, 0x12, 0x05, 0x00, 0x06, 0x02, 0x00, 0x78, 0x56] := by
  decide

end E1000e
